import Mathlib

/-!
Verification development for the tipoca-stream repository.

The definitions below are shallow embeddings of the Go source:

* `pkg/s3sink/s3sink.go` (the `redshiftbatcher` batch processor part):
  `constructS3key`, `removeEmptyNullValues`, `processMessage`,
  `processMessages`, `processBatch`, `markOffset` and one round of `Process`.
* `controllers/realtime_calculator.go`: `maxLag`, `fetchRealtimeCache`,
  `fetchRealtimeInfo` and the per-topic body of `calculate`.
* `kafka-go/pkg/consumer/manager.go`: one iteration of `Manager.Consume`.
* `cmd/redshiftbatcher/main.go`: the consumer-group registration part of `run`.

External collaborators (AWS SDK, sarama, schema registry, the debezium
transformers, gzip, JSON marshalling) are modelled as abstract function
parameters collected in environment structures; machine integers (int32,
int64) are modelled as `Int` (no arithmetic in the embedded code overflows).
-/

/-- Association-list lookup, modelling a read from a Go map. -/
def lookupAssoc {α : Type} : List (String × α) → String → Option α
  | [], _ => none
  | (k2, v) :: rest, k => if k2 = k then some v else lookupAssoc rest k

/-- Association-list upsert, modelling a write to a Go map (or `sync.Map.Store`). -/
def storeAssoc {α : Type} : List (String × α) → String → α → List (String × α)
  | [], k, v => [(k, v)]
  | (k2, v2) :: rest, k, v =>
    if k2 = k then (k, v) :: rest else (k2, v2) :: storeAssoc rest k v

theorem lookupAssoc_storeAssoc {α : Type} (l : List (String × α)) (k : String) (v : α) :
    lookupAssoc (storeAssoc l k v) k = some v := by
  induction l with
  | nil => simp [storeAssoc, lookupAssoc]
  | cons hd tl ih =>
    obtain ⟨k2, v2⟩ := hd
    by_cases h : k2 = k
    · simp [storeAssoc, lookupAssoc, h]
    · simp [storeAssoc, lookupAssoc, h, ih]

/-- Joins already-clean path segments with a slash. -/
def joinNonEmpty : List String → String
  | [] => ""
  | [a] => a
  | a :: b :: rest => a ++ "/" ++ joinNonEmpty (b :: rest)

/-- Models Go `path/filepath.Join` for elements that are clean path segments
(no separator, not `.` or `..`), on which `filepath.Clean` is the identity:
empty elements are skipped and the rest are joined with `/`. -/
def filepathJoin (elems : List String) : String :=
  joinNonEmpty (elems.filter (fun e => e != ""))

theorem joinNonEmpty_cons_ne (a : String) (rest : List String) (h : a ≠ "") :
    joinNonEmpty (a :: rest) ≠ "" := by
  cases rest with
  | nil => simpa [joinNonEmpty] using h
  | cons b bs =>
    intro hcontra
    have hlen : (a ++ "/" ++ joinNonEmpty (b :: bs)).length = 0 := by
      rw [joinNonEmpty] at hcontra
      simp [hcontra]
    simp only [String.length_append] at hlen
    have : ("/" : String).length = 1 := by decide
    omega

theorem filepathJoin_ne_empty (elems : List String) (e : String)
    (hmem : e ∈ elems) (hne : e ≠ "") : filepathJoin elems ≠ "" := by
  unfold filepathJoin
  have hmemf : e ∈ elems.filter (fun e => e != "") := by
    refine List.mem_filter.mpr ⟨hmem, ?_⟩
    simpa using hne
  cases hf : elems.filter (fun e => e != "") with
  | nil => rw [hf] at hmemf; simp at hmemf
  | cons a rest =>
    have ha : a ∈ elems.filter (fun e => e != "") := by rw [hf]; exact List.mem_cons_self a rest
    have hane : a ≠ "" := by simpa using (List.mem_filter.mp ha).2
    exact joinNonEmpty_cons_ne a rest hane

/-- Embedding of `constructS3key` from `pkg/s3sink/s3sink.go` (redshiftbatcher
part). The Go function reads the mask file version from viper inside its body
(`viper.GetString("batcher.maskFileVersion")`); the embedding takes it as the
first argument. The argument name `s3ucketDir` reproduces the source spelling. -/
def constructS3key (maskFileVersion : String) (s3ucketDir : String)
    (consumerGroupID : String) (topic : String) (partition : Int) (offset : Int) : String :=
  let s3FileName := toString offset ++ "_offset_" ++ toString partition ++ "_partition.json.gz"
  if maskFileVersion ≠ "" then
    filepathJoin [s3ucketDir, consumerGroupID, topic, maskFileVersion, s3FileName]
  else
    filepathJoin [s3ucketDir, consumerGroupID, topic, s3FileName]

theorem constructS3key_ne_empty (mv dir gid t : String) (p o : Int) :
    constructS3key mv dir gid t p o ≠ "" := by
  unfold constructS3key
  have hfile : toString o ++ "_offset_" ++ toString p ++ "_partition.json.gz" ≠ "" := by
    intro hcontra
    have hlen : (toString o ++ "_offset_" ++ toString p ++ "_partition.json.gz").length = 0 := by
      simp [hcontra]
    simp only [String.length_append] at hlen
    have : ("_offset_" : String).length = 8 := by decide
    omega
  by_cases hmv : mv ≠ ""
  · rw [if_pos hmv]
    exact filepathJoin_ne_empty _ _ (by simp) hfile
  · rw [if_neg hmv]
    exact filepathJoin_ne_empty _ _ (by simp) hfile

/-- Operation of a decoded CDC record (`serializer.Operation`). The Go switch
over this enum has a `klog.Fatalf` default branch; the inductive is closed, so
the default branch has no counterpart. -/
inductive Operation
  | create
  | update
  | delete
deriving DecidableEq

/-- External collaborator: `serializer.MaskInfo`, abstract. -/
structure MaskInfo where
  masked : Bool := false
deriving DecidableEq

/-- External collaborator: `serializer.ExtraMaskInfo`, abstract. -/
structure ExtraMaskInfo where
  masked : Bool := false
deriving DecidableEq

/-- External collaborator: `redshift.Table`, abstract target-table descriptor. -/
structure RedshiftTable where
  name : String := ""
deriving DecidableEq

/-- Embedding of `serializer.Message`. `Value` is `interface\x7b\x7d` in Go; at this
stage of the pipeline it concretely holds a `map[string]*string`, modelled as an
association list of nullable strings. -/
structure Message where
  schemaId : Int
  topic : String
  partition : Int
  offset : Int
  key : String
  value : List (String × Option String)
  bytes : Int
  operation : Operation
  maskSchema : List (String × MaskInfo)
  extraMaskSchema : List (String × ExtraMaskInfo)
deriving DecidableEq

/-- Embedding of the Load-Job signal built by `loader.NewJob` inside
`signalLoad` (field order follows the `NewJob` call in `s3sink.go`). -/
structure Job where
  upstreamTopic : String
  startOffset : Int
  endOffset : Int
  csvDialect : String
  s3Path : String
  schemaId : Int
  schemaIdKey : Int
  maskSchema : List (String × MaskInfo)
  extraMaskSchema : List (String × ExtraMaskInfo)
  skipMerge : Bool
  batchBytes : Int
  createEvents : Int
  updateEvents : Int
  deleteEvents : Int
deriving DecidableEq

/-- Observable external effects of one `Process` round: successful S3 uploads,
signals acknowledged by the signaler, session offset marks and synchronous
commits. -/
inductive Event
  | upload (s3Key : String) (gzBody : String)
  | signal (loaderTopic : String) (loaderSchemaID : Int) (job : Job)
  | mark (topic : String) (partition : Int) (offset : Int)
  | commit
deriving DecidableEq

/-- Errors produced by the batch pipeline. Go uses `fmt.Errorf` strings plus the
sentinel `kafka.ErrSaramaSessionContextDone` (compared with `==` in `Process`);
each constructor corresponds to one error site. -/
inductive BatchError
  | sessionCtxDone
  | schemaTransform (schemaId : Int) (msg : String)
  | schemaMismatch (batchSchemaID : Int) (msgSchemaID : Int)
  | transform (msg : String)
  | mask (msg : String)
  | marshal (msg : String)
  | upload (msg : String)
deriving DecidableEq

/-- Embedding of the `response` struct of `s3sink.go`. `bodyBuf` is the
uncompressed newline-delimited JSON body. -/
structure Response where
  err : Option BatchError
  batchID : Nat
  batchSchemaID : Int
  batchSchemaTable : RedshiftTable
  skipMerge : Bool
  createEvents : Int
  updateEvents : Int
  deleteEvents : Int
  s3Key : String
  bodyBuf : String
  startOffset : Int
  endOffset : Int
  messagesProcessed : Nat
  maskSchema : List (String × MaskInfo)
  extraMaskSchema : List (String × ExtraMaskInfo)
  bytesProcessed : Int
deriving DecidableEq

/-- Embedding of the `batchProcessor` struct fields used by the claims.
The source field `loaderTopicPrefix` is named `loaderTopicPref` here;
`maskFileVersion` lifts the viper read done inside `constructS3key`. -/
structure BatchProcessor where
  topic : String
  partition : Int
  loaderTopicPref : String
  consumerGroupID : String
  autoCommit : Bool
  s3BucketDir : String
  maskMessages : Bool
  maxConcurrency : Nat
  loaderSchemaID : Int
  schemaIDKey : Int
  maskFileVersion : String
deriving DecidableEq

/-- External collaborators of the batch processor, as abstract functions:
the debezium schema/message transformers, the masker, JSON marshalling, gzip
(`none` models a compression failure, which is `klog.Fatalf` in Go), the S3
uploader, the Avro signal producer (the Avro schema definition and the
wall-clock key bytes passed by `signalLoad` are not modelled), the S3 bucket
name, and whether the session context is done (constant during one round). -/
structure BatcherEnv where
  transformValue : String → Int → Int → List (String × MaskInfo) →
    List (String × ExtraMaskInfo) → Except String RedshiftTable
  messageTransform : Message → RedshiftTable → Except String Message
  maskTransform : Message → RedshiftTable → Except String Message
  jsonMarshal : List (String × Option String) → Except String String
  gzipWrite : String → Option String
  upload : String → String → Except String Unit
  signalAdd : String → Int → Job → Except String Unit
  bucket : String
  ctxDone : Bool

/-- Embedding of `removeEmptyNullValues`: drops columns whose value pointer is
nil or whose trimmed string is empty. -/
def removeEmptyNullValues (value : List (String × Option String)) :
    List (String × Option String) :=
  value.filter (fun kv =>
    match kv.2 with
    | none => false
    | some cVal => !(cVal.trim = ""))

/-- Embedding of `S3Sink.GetKeyURI`. -/
def getKeyURI (bucket : String) (key : String) : String :=
  "s3://" ++ bucket ++ "/" ++ key

/-- The Load-Job built by `signalLoad` for one response (`loader.NewJob` call). -/
def mkJob (env : BatcherEnv) (b : BatchProcessor) (resp : Response) : Job :=
  { upstreamTopic := b.topic
    startOffset := resp.startOffset
    endOffset := resp.endOffset
    csvDialect := ","
    s3Path := getKeyURI env.bucket resp.s3Key
    schemaId := resp.batchSchemaID
    schemaIdKey := b.schemaIDKey
    maskSchema := resp.maskSchema
    extraMaskSchema := resp.extraMaskSchema
    skipMerge := resp.skipMerge
    batchBytes := resp.bytesProcessed
    createEvents := resp.createEvents
    updateEvents := resp.updateEvents
    deleteEvents := resp.deleteEvents }

/-- Embedding of `batchProcessor.markOffset`: marks `offset + 1` on the session
and, when auto-commit is off, synchronously commits. -/
def markOffset (topic : String) (partition : Int) (offset : Int)
    (autoCommit : Bool) : List Event :=
  Event.mark topic partition (offset + 1) ::
    (if autoCommit = false then [Event.commit] else [])

/-- Embedding of `batchProcessor.processMessage`. Returns the updated response,
the (possibly transformer-rewritten) message, and the bytes processed. Go
mutates `resp` and `message` in place; on failure the caller observes only the
error (plus the metric fields handled by `processMessagesGo`), so the partially
mutated response is not modelled on the error path. -/
def processMessage (env : BatcherEnv) (b : BatchProcessor) (message : Message)
    (resp : Response) : Except BatchError (Response × Message × Int) :=
  let step1 : Except BatchError Response :=
    if resp.s3Key = "" then
      -- the key and the batchSchemaID are set from the first message only
      let resp := { resp with batchSchemaID := message.schemaId }
      match env.transformValue b.topic resp.batchSchemaID b.schemaIDKey
          resp.maskSchema resp.extraMaskSchema with
      | .error e => .error (.schemaTransform resp.batchSchemaID e)
      | .ok table =>
        .ok { resp with
              batchSchemaTable := table
              s3Key := constructS3key b.maskFileVersion b.s3BucketDir
                b.consumerGroupID message.topic message.partition message.offset
              startOffset := message.offset }
    else
      .ok resp
  match step1 with
  | .error e => .error e
  | .ok resp =>
    if resp.batchSchemaID ≠ message.schemaId then
      .error (.schemaMismatch resp.batchSchemaID message.schemaId)
    else
      match env.messageTransform message resp.batchSchemaTable with
      | .error e => .error (.transform e)
      | .ok message =>
        match (if b.maskMessages then env.maskTransform message resp.batchSchemaTable
               else .ok message) with
        | .error e => .error (.mask e)
        | .ok message =>
          let message := { message with value := removeEmptyNullValues message.value }
          match env.jsonMarshal message.value with
          | .error e => .error (.marshal e)
          | .ok line =>
            let bytesProcessed : Int := message.bytes
            -- the two conditional mask-schema assignments are written as
            -- field-level conditionals (the fields are independent in Go)
            let resp :=
              { resp with
                bodyBuf := resp.bodyBuf ++ line ++ "\n"
                maskSchema :=
                  if b.maskMessages && resp.maskSchema.isEmpty then
                    message.maskSchema
                  else resp.maskSchema
                extraMaskSchema :=
                  if b.maskMessages && resp.extraMaskSchema.isEmpty then
                    message.extraMaskSchema
                  else resp.extraMaskSchema
                skipMerge := false
                endOffset := message.offset }
            .ok (resp, message, bytesProcessed)

/-- The operation switch at the end of the `processMessages` loop body. -/
def countOperation (op : Operation) (resp : Response) : Response :=
  match op with
  | .create => { resp with createEvents := resp.createEvents + 1 }
  | .update => { resp with updateEvents := resp.updateEvents + 1 }
  | .delete => { resp with deleteEvents := resp.deleteEvents + 1 }

/-- Loop of `batchProcessor.processMessages`; the accumulator is
`totalBytesProcessed`. On error the partial byte total is also returned (Go
assigns it to `resp.bytesProcessed` even when an error occurs). -/
def processMessagesGo (env : BatcherEnv) (b : BatchProcessor) :
    List Message → Response → Int → Except (BatchError × Int) (Response × Int)
  | [], resp, total => .ok (resp, total)
  | message :: rest, resp, total =>
    if env.ctxDone then .error (.sessionCtxDone, total)
    else
      match processMessage env b message resp with
      | .error e => .error (e, total)
      | .ok (resp, message, bytesProcessed) =>
        let resp := countOperation message.operation resp
        processMessagesGo env b rest resp (total + bytesProcessed)

/-- Embedding of `batchProcessor.processMessages`. -/
def processMessages (env : BatcherEnv) (b : BatchProcessor)
    (msgBuf : List Message) (resp : Response) :
    Except (BatchError × Int) (Response × Int) :=
  processMessagesGo env b msgBuf resp 0

/-- Embedding of `batchProcessor.processBatch` for one goroutine. `none` models
the `klog.Fatalf` on compression failure (process exit); otherwise the final
response (with `err` set on failure) and the successful upload events. -/
def processBatch (env : BatcherEnv) (b : BatchProcessor) (msgBuf : List Message)
    (resp : Response) : Option (Response × List Event) :=
  if env.ctxDone then
    some ({ resp with err := some .sessionCtxDone }, [])
  else
    match processMessages env b msgBuf resp with
    | .error (e, partialBytes) =>
      some ({ resp with bytesProcessed := partialBytes, err := some e }, [])
    | .ok (resp, totalBytes) =>
      let resp := { resp with bytesProcessed := totalBytes }
      match env.gzipWrite resp.bodyBuf with
      | none => none
      | some gzBody =>
        match env.upload resp.s3Key gzBody with
        | .error e => some ({ resp with err := some (.upload e) }, [])
        | .ok _ =>
          some ({ resp with bodyBuf := "", messagesProcessed := msgBuf.length },
                [Event.upload resp.s3Key gzBody])

/-- A fresh `response` as initialized by the loop in `Process` (`batchID` is the
insertion index plus one; Go zero values for the remaining fields). -/
def freshResponse (i : Nat) : Response :=
  { err := none
    batchID := i + 1
    batchSchemaID := -1
    batchSchemaTable := {}
    skipMerge := false
    createEvents := 0
    updateEvents := 0
    deleteEvents := 0
    s3Key := ""
    bodyBuf := ""
    startOffset := 0
    endOffset := 0
    messagesProcessed := 0
    maskSchema := []
    extraMaskSchema := []
    bytesProcessed := 0 }

/-- Sequential model of the parallel `processBatch` goroutines of one round.
Each batch touches only its own response and the shared (goroutine-safe) S3
client, so its result does not depend on the interleaving; upload events are
listed in batch order. `none` models a `klog.Fatalf` in any goroutine. -/
def runBatchesGo (env : BatcherEnv) (b : BatchProcessor) :
    List (List Message) → Nat → Option (List Response × List Event)
  | [], _ => some ([], [])
  | msgBuf :: rest, i =>
    match processBatch env b msgBuf (freshResponse i) with
    | none => none
    | some (resp, evs) =>
      match runBatchesGo env b rest (i + 1) with
      | none => none
      | some (resps, evs2) => some (resp :: resps, evs ++ evs2)

/-- Result of the signal loop of `Process`: all signals acknowledged, or the
processor returned because the session context was done, or a signal error was
written to the error channel. Events are the acknowledged signals. -/
inductive SignalResult
  | allOk (events : List Event)
  | ctxStop (events : List Event)
  | failed (events : List Event) (e : String)
deriving DecidableEq

/-- The signal loop of `Process`: one `signalLoad` per response, in order. -/
def signalAllGo (env : BatcherEnv) (b : BatchProcessor) :
    List Response → SignalResult
  | [] => .allOk []
  | resp :: rest =>
    if env.ctxDone then .ctxStop []
    else
      match env.signalAdd (b.loaderTopicPref ++ b.topic) b.loaderSchemaID
          (mkJob env b resp) with
      | .error e => if env.ctxDone then .ctxStop [] else .failed [] e
      | .ok _ =>
        let ev := Event.signal (b.loaderTopicPref ++ b.topic) b.loaderSchemaID
          (mkJob env b resp)
        match signalAllGo env b rest with
        | .allOk evs => .allOk (ev :: evs)
        | .ctxStop evs => .ctxStop (ev :: evs)
        | .failed evs e => .failed (ev :: evs) e

/-- How one round of `Process` ended. `fatalCompress` and `fatalNoBatch` are the
two `klog.Fatalf` sites (process exit); `ctxDoneReturn` is any return taken
because the session context was done; `errorSent` / `signalErrorSent` model the
single write to the session error channel followed by processor shutdown. -/
inductive RoundOutcome
  | fatalCompress
  | fatalNoBatch
  | ctxDoneReturn
  | errorSent (errs : List BatchError)
  | signalErrorSent (e : String)
  | ok
deriving DecidableEq

/-- Result of one round of `Process`. -/
structure RoundResult where
  outcome : RoundOutcome
  events : List Event
  responses : List Response
deriving DecidableEq

/-- Embedding of one round of `batchProcessor.Process`, starting from the
buffers already drained from the process channel (the drain select loop is the
concurrency boundary of the model). Follows the source order: run the batches,
scan for errors (returning on a session-context error, else sending the
multierror), signal every batch, then mark (and maybe commit) the offset of the
last batch. -/
def processRound (env : BatcherEnv) (b : BatchProcessor)
    (msgBufs : List (List Message)) : RoundResult :=
  match runBatchesGo env b msgBufs 0 with
  | none => { outcome := .fatalCompress, events := [], responses := [] }
  | some (responses, uploadEvents) =>
    if responses.isEmpty then
      { outcome := .fatalNoBatch, events := uploadEvents, responses := responses }
    else if responses.any (fun r => decide (r.err = some BatchError.sessionCtxDone)) then
      { outcome := .ctxDoneReturn, events := uploadEvents, responses := responses }
    else
      match responses.filterMap (fun r => r.err) with
      | e :: es =>
        if env.ctxDone then
          { outcome := .ctxDoneReturn, events := uploadEvents, responses := responses }
        else
          { outcome := .errorSent (e :: es), events := uploadEvents, responses := responses }
      | [] =>
        match signalAllGo env b responses with
        | .ctxStop sigEvents =>
          { outcome := .ctxDoneReturn, events := uploadEvents ++ sigEvents,
            responses := responses }
        | .failed sigEvents e =>
          { outcome := .signalErrorSent e, events := uploadEvents ++ sigEvents,
            responses := responses }
        | .allOk sigEvents =>
          match responses.getLast? with
          | none =>
            -- unreachable: guarded by the emptiness check above
            { outcome := .fatalNoBatch, events := uploadEvents ++ sigEvents,
              responses := responses }
          | some last =>
            { outcome := .ok
              events := uploadEvents ++ sigEvents ++
                markOffset b.topic 0 last.endOffset b.autoCommit
              responses := responses }

/-- A concrete collaborator environment in which every external call succeeds:
transforms are identities, every value map marshals to an empty JSON object,
compression is modelled as the identity, uploads and signals succeed. -/
def benignEnv : BatcherEnv :=
  { transformValue := fun _ _ _ _ _ => .ok { name := "orders_table" }
    messageTransform := fun m _ => .ok m
    maskTransform := fun m _ => .ok m
    jsonMarshal := fun _ => .ok "\x7b\x7d"
    gzipWrite := fun s => some s
    upload := fun _ _ => .ok ()
    signalAdd := fun _ _ _ => .ok ()
    bucket := "bkt"
    ctxDone := false }

/-- A concrete batch processor for topic `orders`, partition 0, group `g1`,
with auto-commit off and no mask file version. -/
def ordersProcessor : BatchProcessor :=
  { topic := "orders"
    partition := 0
    loaderTopicPref := "loader-"
    consumerGroupID := "g1-test-batcher"
    autoCommit := false
    s3BucketDir := "bucketDir"
    maskMessages := false
    maxConcurrency := 1
    loaderSchemaID := 5
    schemaIDKey := 3
    maskFileVersion := "" }

/-- Record at offset 100 of the happy-batch scenario. -/
def ordersMsg100 : Message :=
  { schemaId := 21, topic := "orders", partition := 0, offset := 100, key := "k1"
    value := [("id", some "1")], bytes := 10, operation := Operation.create
    maskSchema := [], extraMaskSchema := [] }

/-- Record at offset 101 of the happy-batch scenario. -/
def ordersMsg101 : Message :=
  { schemaId := 21, topic := "orders", partition := 0, offset := 101, key := "k2"
    value := [("id", some "2")], bytes := 10, operation := Operation.update
    maskSchema := [], extraMaskSchema := [] }

/-- Record at offset 5 with schema id 7 (schema-change scenario). -/
def schemaMsg5 : Message :=
  { schemaId := 7, topic := "orders", partition := 0, offset := 5, key := "k5"
    value := [("id", some "5")], bytes := 10, operation := Operation.create
    maskSchema := [], extraMaskSchema := [] }

/-- Record at offset 6 with schema id 7 (schema-change scenario). -/
def schemaMsg6 : Message :=
  { schemaMsg5 with offset := 6, key := "k6", value := [("id", some "6")] }

/-- Record at offset 7 with the changed schema id 8 (schema-change scenario). -/
def schemaMsg7 : Message :=
  { schemaMsg5 with schemaId := 8, offset := 7, key := "k7", value := [("id", some "7")] }

theorem countOperation_batchSchemaID (op : Operation) (r : Response) :
    (countOperation op r).batchSchemaID = r.batchSchemaID := by
  cases op <;> rfl

theorem countOperation_s3Key (op : Operation) (r : Response) :
    (countOperation op r).s3Key = r.s3Key := by
  cases op <;> rfl

theorem processMessage_ok_fields {env : BatcherEnv} {b : BatchProcessor}
    {message : Message} {resp resp' : Response} {m' : Message} {n : Int}
    (h : processMessage env b message resp = .ok (resp', m', n)) :
    message.schemaId = resp'.batchSchemaID ∧
    resp'.s3Key = (if resp.s3Key = "" then
        constructS3key b.maskFileVersion b.s3BucketDir b.consumerGroupID
          message.topic message.partition message.offset
      else resp.s3Key) ∧
    (resp.s3Key ≠ "" → resp'.batchSchemaID = resp.batchSchemaID) := by
  unfold processMessage at h
  by_cases hkey : resp.s3Key = "" <;>
    simp only [hkey, if_true, if_false, ite_true, ite_false] at h ⊢
  · cases htv : env.transformValue b.topic message.schemaId b.schemaIDKey
        resp.maskSchema resp.extraMaskSchema with
    | error e => rw [htv] at h; simp at h
    | ok table =>
      rw [htv] at h
      simp only [ne_eq, not_true_eq_false, if_false] at h
      cases hmt : env.messageTransform message table with
      | error e => rw [hmt] at h; simp at h
      | ok message1 =>
        rw [hmt] at h
        dsimp only [] at h
        cases hmk : (if b.maskMessages = true then env.maskTransform message1 table
            else Except.ok message1) with
        | error e => rw [hmk] at h; simp at h
        | ok message2 =>
          rw [hmk] at h
          dsimp only [] at h
          cases hjm : env.jsonMarshal (removeEmptyNullValues message2.value) with
          | error e => rw [hjm] at h; simp at h
          | ok line =>
            rw [hjm] at h
            dsimp only [] at h
            simp only [Except.ok.injEq, Prod.mk.injEq] at h
            obtain ⟨h1, h2, h3⟩ := h
            subst h1
            exact ⟨rfl, rfl, fun hc => absurd rfl hc⟩
  · by_cases hid : resp.batchSchemaID = message.schemaId
    · simp only [ne_eq, hid, not_true_eq_false, if_false] at h
      cases hmt : env.messageTransform message resp.batchSchemaTable with
      | error e => rw [hmt] at h; simp at h
      | ok message1 =>
        rw [hmt] at h
        dsimp only [] at h
        cases hmk : (if b.maskMessages = true then env.maskTransform message1 resp.batchSchemaTable
            else Except.ok message1) with
        | error e => rw [hmk] at h; simp at h
        | ok message2 =>
          rw [hmk] at h
          dsimp only [] at h
          cases hjm : env.jsonMarshal (removeEmptyNullValues message2.value) with
          | error e => rw [hjm] at h; simp at h
          | ok line =>
            rw [hjm] at h
            dsimp only [] at h
            simp only [Except.ok.injEq, Prod.mk.injEq] at h
            obtain ⟨h1, h2, h3⟩ := h
            subst h1
            exact ⟨rfl, rfl, fun _ => hid.symm⟩
    · rw [if_pos hid] at h
      simp at h

theorem processMessagesGo_ok_preserve {env : BatcherEnv} {b : BatchProcessor}
    (buf : List Message) :
    ∀ (resp : Response) (total : Int) (resp' : Response) (total' : Int),
    resp.s3Key ≠ "" →
    processMessagesGo env b buf resp total = .ok (resp', total') →
    resp'.batchSchemaID = resp.batchSchemaID ∧ resp'.s3Key = resp.s3Key ∧
    ∀ m ∈ buf, m.schemaId = resp.batchSchemaID := by
  induction buf with
  | nil =>
    intro resp total resp' total' hkey h
    simp only [processMessagesGo, Except.ok.injEq, Prod.mk.injEq] at h
    obtain ⟨h1, h2⟩ := h
    subst h1
    exact ⟨rfl, rfl, by simp⟩
  | cons message rest ih =>
    intro resp total resp' total' hkey h
    rw [processMessagesGo] at h
    cases hctx : env.ctxDone with
    | true => rw [hctx] at h; simp at h
    | false =>
      rw [hctx] at h
      dsimp only [] at h
      cases hpm : processMessage env b message resp with
      | error e => rw [hpm] at h; simp at h
      | ok out =>
        rw [hpm] at h
        dsimp only [] at h
        obtain ⟨r1, m1, n1⟩ := out
        obtain ⟨hschema, hs3, hpres⟩ := processMessage_ok_fields hpm
        rw [if_neg hkey] at hs3
        have hbid := hpres hkey
        have hckey : (countOperation m1.operation r1).s3Key = resp.s3Key := by
          rw [countOperation_s3Key, hs3]
        have hcbid : (countOperation m1.operation r1).batchSchemaID = resp.batchSchemaID := by
          rw [countOperation_batchSchemaID, hbid]
        have hckey' : (countOperation m1.operation r1).s3Key ≠ "" := by
          rw [hckey]; exact hkey
        obtain ⟨ih1, ih2, ih3⟩ := ih _ _ _ _ hckey' h
        refine ⟨by rw [ih1, hcbid], by rw [ih2, hckey], ?_⟩
        intro m hm
        rcases List.mem_cons.mp hm with hm | hm
        · subst hm; rw [hschema, hbid]
        · have := ih3 m hm
          rw [this, hcbid]

theorem processMessagesGo_fresh_spec {env : BatcherEnv} {b : BatchProcessor}
    {m : Message} {rest : List Message} {resp : Response} {total : Int}
    {resp' : Response} {total' : Int} (hkey : resp.s3Key = "")
    (h : processMessagesGo env b (m :: rest) resp total = .ok (resp', total')) :
    resp'.s3Key = constructS3key b.maskFileVersion b.s3BucketDir b.consumerGroupID
      m.topic m.partition m.offset ∧
    resp'.batchSchemaID = m.schemaId ∧
    ∀ x ∈ m :: rest, x.schemaId = m.schemaId := by
  rw [processMessagesGo] at h
  cases hctx : env.ctxDone with
  | true => rw [hctx] at h; simp at h
  | false =>
    rw [hctx] at h
    dsimp only [] at h
    cases hpm : processMessage env b m resp with
    | error e => rw [hpm] at h; simp at h
    | ok out =>
      rw [hpm] at h
      dsimp only [] at h
      obtain ⟨r1, m1, n1⟩ := out
      obtain ⟨hschema, hs3, _⟩ := processMessage_ok_fields hpm
      rw [if_pos hkey] at hs3
      have hckey : (countOperation m1.operation r1).s3Key =
          constructS3key b.maskFileVersion b.s3BucketDir b.consumerGroupID
            m.topic m.partition m.offset := by
        rw [countOperation_s3Key, hs3]
      have hcbid : (countOperation m1.operation r1).batchSchemaID = m.schemaId := by
        rw [countOperation_batchSchemaID, ← hschema]
      have hckey' : (countOperation m1.operation r1).s3Key ≠ "" := by
        rw [hckey]; exact constructS3key_ne_empty _ _ _ _ _ _
      obtain ⟨ih1, ih2, ih3⟩ := processMessagesGo_ok_preserve rest _ _ _ _ hckey' h
      refine ⟨by rw [ih2, hckey], by rw [ih1, hcbid], ?_⟩
      intro x hx
      rcases List.mem_cons.mp hx with hx | hx
      · subst hx; rfl
      · have := ih3 x hx
        rw [this, hcbid]

theorem processBatch_spec {env : BatcherEnv} {b : BatchProcessor}
    {msgBuf : List Message} {r0 r : Response} {evs : List Event}
    (h : processBatch env b msgBuf r0 = some (r, evs)) :
    (∀ e ∈ evs, ∃ k gz, e = Event.upload k gz) ∧
    (r.err = none → ∃ gz, evs = [Event.upload r.s3Key gz]) := by
  unfold processBatch at h
  cases hctx : env.ctxDone with
  | true =>
    rw [hctx, if_pos rfl] at h
    simp only [Option.some.injEq, Prod.mk.injEq] at h
    obtain ⟨h1, h2⟩ := h
    subst h2
    refine ⟨by simp, fun herr => ?_⟩
    rw [← h1] at herr
    simp at herr
  | false =>
    rw [hctx, if_neg Bool.false_ne_true] at h
    cases hpm : processMessages env b msgBuf r0 with
    | error eb =>
      obtain ⟨e, partialBytes⟩ := eb
      rw [hpm] at h
      dsimp only [] at h
      simp only [Option.some.injEq, Prod.mk.injEq] at h
      obtain ⟨h1, h2⟩ := h
      subst h2
      refine ⟨by simp, fun herr => ?_⟩
      rw [← h1] at herr
      simp at herr
    | ok out =>
      obtain ⟨rmid, totalBytes⟩ := out
      rw [hpm] at h
      dsimp only [] at h
      cases hgz : env.gzipWrite ({ rmid with bytesProcessed := totalBytes } : Response).bodyBuf with
      | none => rw [hgz] at h; simp at h
      | some gzBody =>
        rw [hgz] at h
        dsimp only [] at h
        cases hup : env.upload ({ rmid with bytesProcessed := totalBytes } : Response).s3Key gzBody with
        | error e =>
          rw [hup] at h
          simp only [Option.some.injEq, Prod.mk.injEq] at h
          obtain ⟨h1, h2⟩ := h
          subst h2
          refine ⟨by simp, fun herr => ?_⟩
          rw [← h1] at herr
          simp at herr
        | ok u =>
          rw [hup] at h
          simp only [Option.some.injEq, Prod.mk.injEq] at h
          obtain ⟨h1, h2⟩ := h
          subst h2
          refine ⟨?_, fun _ => ⟨gzBody, ?_⟩⟩
          · intro e he
            rw [List.mem_singleton.mp he]
            exact ⟨_, _, rfl⟩
          · rw [← h1]

theorem runBatchesGo_spec {env : BatcherEnv} {b : BatchProcessor}
    (bufs : List (List Message)) :
    ∀ (i : Nat) (resps : List Response) (evs : List Event),
    runBatchesGo env b bufs i = some (resps, evs) →
    (∀ e ∈ evs, ∃ k gz, e = Event.upload k gz) ∧
    (∀ r ∈ resps, r.err = none → ∃ gz, Event.upload r.s3Key gz ∈ evs) ∧
    resps.length = bufs.length := by
  induction bufs with
  | nil =>
    intro i resps evs h
    simp only [runBatchesGo, Option.some.injEq, Prod.mk.injEq] at h
    obtain ⟨h1, h2⟩ := h
    subst h1; subst h2
    refine ⟨?_, ?_, rfl⟩
    · intro e he; simp at he
    · intro r hr; simp at hr
  | cons buf rest ih =>
    intro i resps evs h
    rw [runBatchesGo] at h
    cases hpb : processBatch env b buf (freshResponse i) with
    | none => rw [hpb] at h; simp at h
    | some out =>
      obtain ⟨r1, evs1⟩ := out
      rw [hpb] at h
      dsimp only [] at h
      cases hrb : runBatchesGo env b rest (i + 1) with
      | none => rw [hrb] at h; simp at h
      | some out2 =>
        obtain ⟨resps2, evs2⟩ := out2
        rw [hrb] at h
        simp only [Option.some.injEq, Prod.mk.injEq] at h
        obtain ⟨h1, h2⟩ := h
        subst h1; subst h2
        obtain ⟨hb1, hb2⟩ := processBatch_spec hpb
        obtain ⟨ih1, ih2, ih3⟩ := ih _ _ _ hrb
        refine ⟨?_, ?_, by simp [ih3]⟩
        · intro e he
          rcases List.mem_append.mp he with he | he
          · exact hb1 e he
          · exact ih1 e he
        · intro r hr herr
          rcases List.mem_cons.mp hr with hr | hr
          · subst hr
            obtain ⟨gz, hgz⟩ := hb2 herr
            exact ⟨gz, by rw [hgz]; simp⟩
          · obtain ⟨gz, hgz⟩ := ih2 r hr herr
            exact ⟨gz, List.mem_append.mpr (Or.inr hgz)⟩

theorem signalAllGo_allOk_map {env : BatcherEnv} {b : BatchProcessor}
    (resps : List Response) :
    ∀ (evs : List Event), signalAllGo env b resps = .allOk evs →
    evs = resps.map (fun r =>
      Event.signal (b.loaderTopicPref ++ b.topic) b.loaderSchemaID (mkJob env b r)) := by
  induction resps with
  | nil =>
    intro evs h
    simp only [signalAllGo, SignalResult.allOk.injEq] at h
    simp [← h]
  | cons resp rest ih =>
    intro evs h
    rw [signalAllGo] at h
    cases hctx : env.ctxDone with
    | true => rw [hctx, if_pos rfl] at h; simp at h
    | false =>
      rw [hctx, if_neg Bool.false_ne_true] at h
      cases hsig : env.signalAdd (b.loaderTopicPref ++ b.topic) b.loaderSchemaID
          (mkJob env b resp) with
      | error e =>
        rw [hsig] at h
        dsimp only [] at h
        rw [if_neg Bool.false_ne_true] at h
        simp at h
      | ok u =>
        rw [hsig] at h
        dsimp only [] at h
        cases hrec : signalAllGo env b rest with
        | allOk evs1 =>
          rw [hrec] at h
          simp only [SignalResult.allOk.injEq] at h
          have ihmap := ih evs1 hrec
          subst h
          simp [ihmap]
        | ctxStop evs1 => rw [hrec] at h; simp at h
        | failed evs1 e => rw [hrec] at h; simp at h

/-- Accessor for the events contained in a `SignalResult`. -/
def SignalResult.eventList : SignalResult → List Event
  | .allOk evs => evs
  | .ctxStop evs => evs
  | .failed evs _ => evs

theorem signalAllGo_events_signal {env : BatcherEnv} {b : BatchProcessor}
    (resps : List Response) :
    ∀ e ∈ (signalAllGo env b resps).eventList, ∃ t s j, e = Event.signal t s j := by
  induction resps with
  | nil => intro e he; simp [signalAllGo, SignalResult.eventList] at he
  | cons resp rest ih =>
    intro e he
    rw [signalAllGo] at he
    cases hctx : env.ctxDone with
    | true => rw [hctx, if_pos rfl] at he; simp [SignalResult.eventList] at he
    | false =>
      rw [hctx, if_neg Bool.false_ne_true] at he
      cases hsig : env.signalAdd (b.loaderTopicPref ++ b.topic) b.loaderSchemaID
          (mkJob env b resp) with
      | error e2 =>
        rw [hsig] at he
        dsimp only [] at he
        rw [if_neg Bool.false_ne_true] at he
        simp [SignalResult.eventList] at he
      | ok u =>
        rw [hsig] at he
        dsimp only [] at he
        cases hrec : signalAllGo env b rest with
        | allOk evs1 =>
          rw [hrec] at he
          simp only [SignalResult.eventList, List.mem_cons] at he
          rcases he with he | he
          · exact ⟨_, _, _, he⟩
          · have := ih e
            rw [hrec] at this
            exact this he
        | ctxStop evs1 =>
          rw [hrec] at he
          simp only [SignalResult.eventList, List.mem_cons] at he
          rcases he with he | he
          · exact ⟨_, _, _, he⟩
          · have := ih e
            rw [hrec] at this
            exact this he
        | failed evs1 e3 =>
          rw [hrec] at he
          simp only [SignalResult.eventList, List.mem_cons] at he
          rcases he with he | he
          · exact ⟨_, _, _, he⟩
          · have := ih e
            rw [hrec] at this
            exact this he

theorem processRound_ok_spec {env : BatcherEnv} {b : BatchProcessor}
    {msgBufs : List (List Message)}
    (h : (processRound env b msgBufs).outcome = RoundOutcome.ok) :
    ∃ es last,
      (processRound env b msgBufs).responses.getLast? = some last ∧
      (processRound env b msgBufs).events =
        es ++ markOffset b.topic 0 last.endOffset b.autoCommit ∧
      (∀ e ∈ es, (∃ k gz, e = Event.upload k gz) ∨ ∃ t s j, e = Event.signal t s j) ∧
      (∀ r ∈ (processRound env b msgBufs).responses,
        r.err = none ∧ (∃ gz, Event.upload r.s3Key gz ∈ es) ∧
        Event.signal (b.loaderTopicPref ++ b.topic) b.loaderSchemaID (mkJob env b r) ∈ es) := by
  cases hrb : runBatchesGo env b msgBufs 0 with
  | none =>
    have heq : processRound env b msgBufs =
        { outcome := .fatalCompress, events := [], responses := [] } := by
      rw [processRound, hrb]
    rw [heq] at h
    simp at h
  | some out =>
    obtain ⟨resps, upEvs⟩ := out
    cases hemp : resps.isEmpty with
    | true =>
      have heq : processRound env b msgBufs =
          { outcome := .fatalNoBatch, events := upEvs, responses := resps } := by
        rw [processRound, hrb]
        dsimp only []
        rw [hemp, if_pos rfl]
      rw [heq] at h
      simp at h
    | false =>
      cases handy : resps.any (fun r => decide (r.err = some BatchError.sessionCtxDone)) with
      | true =>
        have heq : processRound env b msgBufs =
            { outcome := .ctxDoneReturn, events := upEvs, responses := resps } := by
          rw [processRound, hrb]
          dsimp only []
          rw [hemp, if_neg Bool.false_ne_true, handy, if_pos rfl]
        rw [heq] at h
        simp at h
      | false =>
        cases herrs : resps.filterMap (fun r => r.err) with
        | cons e es2 =>
          cases hctx : env.ctxDone with
          | true =>
            have heq : processRound env b msgBufs =
                { outcome := .ctxDoneReturn, events := upEvs, responses := resps } := by
              rw [processRound, hrb]
              dsimp only []
              rw [hemp, if_neg Bool.false_ne_true, handy, if_neg Bool.false_ne_true, herrs]
              dsimp only []
              rw [hctx, if_pos rfl]
            rw [heq] at h
            simp at h
          | false =>
            have heq : processRound env b msgBufs =
                { outcome := .errorSent (e :: es2), events := upEvs, responses := resps } := by
              rw [processRound, hrb]
              dsimp only []
              rw [hemp, if_neg Bool.false_ne_true, handy, if_neg Bool.false_ne_true, herrs]
              dsimp only []
              rw [hctx, if_neg Bool.false_ne_true]
            rw [heq] at h
            simp at h
        | nil =>
          cases hsig : signalAllGo env b resps with
          | ctxStop sigEvs =>
            have heq : processRound env b msgBufs =
                { outcome := .ctxDoneReturn, events := upEvs ++ sigEvs, responses := resps } := by
              rw [processRound, hrb]
              dsimp only []
              rw [hemp, if_neg Bool.false_ne_true, handy, if_neg Bool.false_ne_true, herrs]
              dsimp only []
              rw [hsig]
            rw [heq] at h
            simp at h
          | failed sigEvs e2 =>
            have heq : processRound env b msgBufs =
                { outcome := .signalErrorSent e2, events := upEvs ++ sigEvs, responses := resps } := by
              rw [processRound, hrb]
              dsimp only []
              rw [hemp, if_neg Bool.false_ne_true, handy, if_neg Bool.false_ne_true, herrs]
              dsimp only []
              rw [hsig]
            rw [heq] at h
            simp at h
          | allOk sigEvs =>
            cases hlast : resps.getLast? with
            | none =>
              have heq : processRound env b msgBufs =
                  { outcome := .fatalNoBatch, events := upEvs ++ sigEvs, responses := resps } := by
                rw [processRound, hrb]
                dsimp only []
                rw [hemp, if_neg Bool.false_ne_true, handy, if_neg Bool.false_ne_true, herrs]
                dsimp only []
                rw [hsig]
                dsimp only []
                rw [hlast]
              rw [heq] at h
              simp at h
            | some last =>
              have heq : processRound env b msgBufs =
                  { outcome := .ok
                    events := upEvs ++ sigEvs ++ markOffset b.topic 0 last.endOffset b.autoCommit
                    responses := resps } := by
                rw [processRound, hrb]
                dsimp only []
                rw [hemp, if_neg Bool.false_ne_true, handy, if_neg Bool.false_ne_true, herrs]
                dsimp only []
                rw [hsig]
                dsimp only []
                rw [hlast]
              rw [heq]
              have hmap := signalAllGo_allOk_map resps sigEvs hsig
              obtain ⟨hup1, hup2, _⟩ := runBatchesGo_spec msgBufs 0 resps upEvs hrb
              have herrnone : ∀ r ∈ resps, r.err = none := by
                intro r hr
                have := List.filterMap_eq_nil_iff.mp herrs r hr
                exact this
              refine ⟨upEvs ++ sigEvs, last, hlast, by simp [List.append_assoc], ?_, ?_⟩
              · intro e he
                rcases List.mem_append.mp he with he | he
                · exact Or.inl (hup1 e he)
                · right
                  rw [hmap] at he
                  obtain ⟨r, _, hr2⟩ := List.mem_map.mp he
                  exact ⟨_, _, _, hr2.symm⟩
              · intro r hr
                refine ⟨herrnone r hr, ?_, ?_⟩
                · obtain ⟨gz, hgz⟩ := hup2 r hr (herrnone r hr)
                  exact ⟨gz, List.mem_append.mpr (Or.inl hgz)⟩
                · refine List.mem_append.mpr (Or.inr ?_)
                  rw [hmap]
                  exact List.mem_map.mpr ⟨r, hr, rfl⟩

theorem processRound_mark_spec {env : BatcherEnv} {b : BatchProcessor}
    {msgBufs : List (List Message)} {t : String} {k o : Int}
    (h : Event.mark t k o ∈ (processRound env b msgBufs).events) :
    t = b.topic ∧ k = 0 ∧ (processRound env b msgBufs).outcome = RoundOutcome.ok ∧
    ∃ last, (processRound env b msgBufs).responses.getLast? = some last ∧
      o = last.endOffset + 1 := by
  cases hrb : runBatchesGo env b msgBufs 0 with
  | none =>
    have heq : processRound env b msgBufs =
        { outcome := .fatalCompress, events := [], responses := [] } := by
      rw [processRound, hrb]
    rw [heq] at h
    simp at h
  | some out =>
    obtain ⟨resps, upEvs⟩ := out
    obtain ⟨hup1, hup2, _⟩ := runBatchesGo_spec msgBufs 0 resps upEvs hrb
    have hupmark : Event.mark t k o ∈ upEvs → False := by
      intro hin
      obtain ⟨k2, gz, hk⟩ := hup1 _ hin
      simp at hk
    have hsigmark : ∀ sigEvs, (signalAllGo env b resps).eventList = sigEvs →
        Event.mark t k o ∈ sigEvs → False := by
      intro sigEvs hsl hin
      rw [← hsl] at hin
      obtain ⟨t2, s2, j2, hk⟩ := signalAllGo_events_signal resps _ hin
      simp at hk
    cases hemp : resps.isEmpty with
    | true =>
      have heq : processRound env b msgBufs =
          { outcome := .fatalNoBatch, events := upEvs, responses := resps } := by
        rw [processRound, hrb]
        dsimp only []
        rw [hemp, if_pos rfl]
      rw [heq] at h
      exact absurd h (fun hin => hupmark hin)
    | false =>
      cases handy : resps.any (fun r => decide (r.err = some BatchError.sessionCtxDone)) with
      | true =>
        have heq : processRound env b msgBufs =
            { outcome := .ctxDoneReturn, events := upEvs, responses := resps } := by
          rw [processRound, hrb]
          dsimp only []
          rw [hemp, if_neg Bool.false_ne_true, handy, if_pos rfl]
        rw [heq] at h
        exact absurd h (fun hin => hupmark hin)
      | false =>
        cases herrs : resps.filterMap (fun r => r.err) with
        | cons e es2 =>
          cases hctx : env.ctxDone with
          | true =>
            have heq : processRound env b msgBufs =
                { outcome := .ctxDoneReturn, events := upEvs, responses := resps } := by
              rw [processRound, hrb]
              dsimp only []
              rw [hemp, if_neg Bool.false_ne_true, handy, if_neg Bool.false_ne_true, herrs]
              dsimp only []
              rw [hctx, if_pos rfl]
            rw [heq] at h
            exact absurd h (fun hin => hupmark hin)
          | false =>
            have heq : processRound env b msgBufs =
                { outcome := .errorSent (e :: es2), events := upEvs, responses := resps } := by
              rw [processRound, hrb]
              dsimp only []
              rw [hemp, if_neg Bool.false_ne_true, handy, if_neg Bool.false_ne_true, herrs]
              dsimp only []
              rw [hctx, if_neg Bool.false_ne_true]
            rw [heq] at h
            exact absurd h (fun hin => hupmark hin)
        | nil =>
          cases hsig : signalAllGo env b resps with
          | ctxStop sigEvs =>
            have heq : processRound env b msgBufs =
                { outcome := .ctxDoneReturn, events := upEvs ++ sigEvs, responses := resps } := by
              rw [processRound, hrb]
              dsimp only []
              rw [hemp, if_neg Bool.false_ne_true, handy, if_neg Bool.false_ne_true, herrs]
              dsimp only []
              rw [hsig]
            rw [heq] at h
            rcases List.mem_append.mp h with hin | hin
            · exact absurd hin (fun hin => hupmark hin)
            · exact absurd hin (fun hin =>
                hsigmark sigEvs (by rw [hsig]; rfl) hin)
          | failed sigEvs e2 =>
            have heq : processRound env b msgBufs =
                { outcome := .signalErrorSent e2, events := upEvs ++ sigEvs, responses := resps } := by
              rw [processRound, hrb]
              dsimp only []
              rw [hemp, if_neg Bool.false_ne_true, handy, if_neg Bool.false_ne_true, herrs]
              dsimp only []
              rw [hsig]
            rw [heq] at h
            rcases List.mem_append.mp h with hin | hin
            · exact absurd hin (fun hin => hupmark hin)
            · exact absurd hin (fun hin =>
                hsigmark sigEvs (by rw [hsig]; rfl) hin)
          | allOk sigEvs =>
            cases hlast : resps.getLast? with
            | none =>
              have heq : processRound env b msgBufs =
                  { outcome := .fatalNoBatch, events := upEvs ++ sigEvs, responses := resps } := by
                rw [processRound, hrb]
                dsimp only []
                rw [hemp, if_neg Bool.false_ne_true, handy, if_neg Bool.false_ne_true, herrs]
                dsimp only []
                rw [hsig]
                dsimp only []
                rw [hlast]
              rw [heq] at h
              rcases List.mem_append.mp h with hin | hin
              · exact absurd hin (fun hin => hupmark hin)
              · exact absurd hin (fun hin =>
                  hsigmark sigEvs (by rw [hsig]; rfl) hin)
            | some last =>
              have heq : processRound env b msgBufs =
                  { outcome := .ok
                    events := upEvs ++ sigEvs ++ markOffset b.topic 0 last.endOffset b.autoCommit
                    responses := resps } := by
                rw [processRound, hrb]
                dsimp only []
                rw [hemp, if_neg Bool.false_ne_true, handy, if_neg Bool.false_ne_true, herrs]
                dsimp only []
                rw [hsig]
                dsimp only []
                rw [hlast]
              rw [heq] at h ⊢
              rcases List.mem_append.mp h with hin | hin
              · rcases List.mem_append.mp hin with hin | hin
                · exact absurd hin (fun hin => hupmark hin)
                · exact absurd hin (fun hin =>
                    hsigmark sigEvs (by rw [hsig]; rfl) hin)
              · rw [markOffset] at hin
                rcases List.mem_cons.mp hin with hin | hin
                · have h1 : t = b.topic ∧ k = 0 ∧ o = last.endOffset + 1 := by
                    injection hin with a1 a2 a3
                    exact ⟨a1, a2, a3⟩
                  exact ⟨h1.1, h1.2.1, rfl, last, hlast, h1.2.2⟩
                · exfalso
                  cases hac : b.autoCommit with
                  | true => rw [hac] at hin; simp at hin
                  | false => rw [hac] at hin; simp at hin

/-- C1: in every successful round of `Process`, the offset marked on the
session is the last drained batch's `endOffset + 1`; the mark event comes after
every upload and every Load-Job signal of the round (the preceding events are
exactly uploads and signals, and every batch of the round has both its upload
and its signal among them); when auto-commit is off, a synchronous commit
follows the mark. -/
theorem c1_mark_after_uploads_and_signals (env : BatcherEnv) (b : BatchProcessor)
    (msgBufs : List (List Message))
    (h : (processRound env b msgBufs).outcome = RoundOutcome.ok) :
    ∃ es last,
      (processRound env b msgBufs).responses.getLast? = some last ∧
      (processRound env b msgBufs).events =
        es ++ markOffset b.topic 0 last.endOffset b.autoCommit ∧
      markOffset b.topic 0 last.endOffset b.autoCommit =
        Event.mark b.topic 0 (last.endOffset + 1) ::
          (if b.autoCommit = false then [Event.commit] else []) ∧
      (∀ e ∈ es, (∃ k gz, e = Event.upload k gz) ∨ ∃ t s j, e = Event.signal t s j) ∧
      (∀ r ∈ (processRound env b msgBufs).responses,
        r.err = none ∧ (∃ gz, Event.upload r.s3Key gz ∈ es) ∧
        Event.signal (b.loaderTopicPref ++ b.topic) b.loaderSchemaID (mkJob env b r) ∈ es) := by
  obtain ⟨es, last, h1, h2, h3, h4⟩ := processRound_ok_spec h
  exact ⟨es, last, h1, h2, rfl, h3, h4⟩

/-- C1 witness: the happy-batch scenario. Two records at offsets 100 and 101
of topic `orders` in one buffer: the round succeeds, the uploaded object sits
at `bucketDir/g1-test-batcher/orders/100_offset_0_partition.json.gz` with two
JSON lines, one Load-Job signal carries startOffset 100 and endOffset 101, the
marked offset is 102, and (auto-commit off) a synchronous commit follows. -/
theorem c1_mark_after_uploads_and_signals_witness :
    (processRound benignEnv ordersProcessor [[ordersMsg100, ordersMsg101]]).outcome =
      RoundOutcome.ok ∧
    (∃ es last,
      (processRound benignEnv ordersProcessor
        [[ordersMsg100, ordersMsg101]]).responses.getLast? = some last ∧
      (processRound benignEnv ordersProcessor [[ordersMsg100, ordersMsg101]]).events =
        es ++ markOffset ordersProcessor.topic 0 last.endOffset ordersProcessor.autoCommit ∧
      markOffset ordersProcessor.topic 0 last.endOffset ordersProcessor.autoCommit =
        Event.mark ordersProcessor.topic 0 (last.endOffset + 1) ::
          (if ordersProcessor.autoCommit = false then [Event.commit] else []) ∧
      (∀ e ∈ es, (∃ k gz, e = Event.upload k gz) ∨ ∃ t s j, e = Event.signal t s j) ∧
      (∀ r ∈ (processRound benignEnv ordersProcessor
          [[ordersMsg100, ordersMsg101]]).responses,
        r.err = none ∧ (∃ gz, Event.upload r.s3Key gz ∈ es) ∧
        Event.signal (ordersProcessor.loaderTopicPref ++ ordersProcessor.topic)
          ordersProcessor.loaderSchemaID (mkJob benignEnv ordersProcessor r) ∈ es)) ∧
    (processRound benignEnv ordersProcessor [[ordersMsg100, ordersMsg101]]).events =
      [Event.upload "bucketDir/g1-test-batcher/orders/100_offset_0_partition.json.gz"
         "\x7b\x7d\n\x7b\x7d\n",
       Event.signal "loader-orders" 5
         { upstreamTopic := "orders", startOffset := 100, endOffset := 101,
           csvDialect := ",",
           s3Path := "s3://bkt/bucketDir/g1-test-batcher/orders/100_offset_0_partition.json.gz",
           schemaId := 21, schemaIdKey := 3, maskSchema := [], extraMaskSchema := [],
           skipMerge := false, batchBytes := 20, createEvents := 1, updateEvents := 1,
           deleteEvents := 0 },
       Event.mark "orders" 0 102, Event.commit] :=
  ⟨by decide,
   c1_mark_after_uploads_and_signals benignEnv ordersProcessor
     [[ordersMsg100, ordersMsg101]] (by decide),
   by decide⟩

/-- C10 (implicit): every offset mark emitted by a `Process` round is for the
processor's topic with the partition argument fixed to 0, whatever the
processor's `partition` field is (`b.markOffset(session, b.topic, 0, ...)`),
and marks happen only in successful rounds. -/
theorem c10_mark_partition_always_zero (env : BatcherEnv) (b : BatchProcessor)
    (msgBufs : List (List Message)) (t : String) (k o : Int)
    (h : Event.mark t k o ∈ (processRound env b msgBufs).events) :
    t = b.topic ∧ k = 0 ∧ (processRound env b msgBufs).outcome = RoundOutcome.ok := by
  obtain ⟨h1, h2, h3, _⟩ := processRound_mark_spec h
  exact ⟨h1, h2, h3⟩

/-- The happy-batch processor placed on the non-zero partition 7. -/
def ordersProcessorP7 : BatchProcessor := { ordersProcessor with partition := 7 }

/-- C10 witness: a processor created on partition 7 still marks under
partition 0. -/
theorem c10_mark_partition_always_zero_witness :
    Event.mark "orders" 0 102 ∈
      (processRound benignEnv ordersProcessorP7 [[ordersMsg100, ordersMsg101]]).events ∧
    ("orders" = ordersProcessorP7.topic ∧ (0 : Int) = 0 ∧
      (processRound benignEnv ordersProcessorP7
        [[ordersMsg100, ordersMsg101]]).outcome = RoundOutcome.ok) :=
  ⟨by decide,
   c10_mark_partition_always_zero benignEnv ordersProcessorP7
     [[ordersMsg100, ordersMsg101]] "orders" 0 102 (by decide)⟩

/-- C2: a schema-id change inside one buffer aborts the batch. First conjunct:
any buffer processed to completion from a fresh response has all records on the
first record's schema id (so a batch that reaches upload is homogeneous).
Second conjunct: no offset is ever marked in a round that does not succeed.
Third conjunct: the concrete scenario — records at offsets 5, 6 with schema id
7 followed by offset 7 with schema id 8 in the same buffer make the round fail
with exactly the schema-mismatch error, with no upload event and no mark. -/
theorem c2_schema_mismatch_aborts_batch :
    (∀ (env : BatcherEnv) (b : BatchProcessor) (m : Message) (rest : List Message)
       (i : Nat) (resp' : Response) (total' : Int),
       processMessagesGo env b (m :: rest) (freshResponse i) 0 = .ok (resp', total') →
       ∀ x ∈ m :: rest, x.schemaId = m.schemaId) ∧
    (∀ (env : BatcherEnv) (b : BatchProcessor) (msgBufs : List (List Message))
       (t : String) (k o : Int),
       Event.mark t k o ∈ (processRound env b msgBufs).events →
       (processRound env b msgBufs).outcome = RoundOutcome.ok) ∧
    ((processRound benignEnv ordersProcessor
        [[schemaMsg5, schemaMsg6, schemaMsg7]]).outcome =
      RoundOutcome.errorSent [BatchError.schemaMismatch 7 8] ∧
     (processRound benignEnv ordersProcessor
        [[schemaMsg5, schemaMsg6, schemaMsg7]]).events = []) := by
  refine ⟨?_, ?_, by decide, by decide⟩
  · intro env b m rest i resp' total' h x hx
    exact (processMessagesGo_fresh_spec rfl h).2.2 x hx
  · intro env b msgBufs t k o h
    exact (processRound_mark_spec h).2.2.1

/-- C2 witness: the homogeneity conjunct applied to the happy batch (both
records carry schema id 21 and the run completes), and the concrete mismatch
outcome. -/
theorem c2_schema_mismatch_aborts_batch_witness :
    (∀ x ∈ [ordersMsg100, ordersMsg101], x.schemaId = ordersMsg100.schemaId) ∧
    (processRound benignEnv ordersProcessor
        [[schemaMsg5, schemaMsg6, schemaMsg7]]).outcome =
      RoundOutcome.errorSent [BatchError.schemaMismatch 7 8] :=
  ⟨c2_schema_mismatch_aborts_batch.1 benignEnv ordersProcessor ordersMsg100
     [ordersMsg101] 0
     { err := none, batchID := 1, batchSchemaID := 21
       batchSchemaTable := { name := "orders_table" }, skipMerge := false
       createEvents := 1, updateEvents := 1, deleteEvents := 0
       s3Key := "bucketDir/g1-test-batcher/orders/100_offset_0_partition.json.gz"
       bodyBuf := "\x7b\x7d\n\x7b\x7d\n", startOffset := 100, endOffset := 101
       messagesProcessed := 0, maskSchema := [], extraMaskSchema := []
       bytesProcessed := 0 }
     20 (by rfl),
   c2_schema_mismatch_aborts_batch.2.2.1⟩

/-- C7: for clean non-empty path segments, `constructS3key` returns exactly
`bucketDir/consumerGroupID/topic/[maskVersion/]{offset}_offset_{partition}_partition.json.gz`
with the maskVersion segment present iff the configured mask file version is
non-empty (determinism over the six arguments holds because the embedding is a
pure function of exactly those arguments); and in `processMessage` the key of a
completed batch is built from the first record only. -/
theorem c7_construct_s3_key (mv dir gid t : String) (p o : Int)
    (hd : dir ≠ "") (hg : gid ≠ "") (ht : t ≠ "") :
    (constructS3key mv dir gid t p o =
      dir ++ "/" ++ gid ++ "/" ++ t ++ "/" ++
        (if mv ≠ "" then mv ++ "/" else "") ++
        (toString o ++ "_offset_" ++ toString p ++ "_partition.json.gz")) ∧
    (∀ (env : BatcherEnv) (b : BatchProcessor) (m : Message) (rest : List Message)
       (i : Nat) (resp' : Response) (total' : Int),
       processMessagesGo env b (m :: rest) (freshResponse i) 0 = .ok (resp', total') →
       resp'.s3Key = constructS3key b.maskFileVersion b.s3BucketDir
         b.consumerGroupID m.topic m.partition m.offset) := by
  constructor
  · have hfile : (toString o ++ "_offset_" ++ toString p ++ "_partition.json.gz") ≠ "" := by
      intro hcontra
      have hlen : (toString o ++ "_offset_" ++ toString p ++ "_partition.json.gz").length = 0 := by
        simp [hcontra]
      simp only [String.length_append] at hlen
      have : ("_offset_" : String).length = 8 := by decide
      omega
    have hd' : (dir != "") = true := by simpa using hd
    have hg' : (gid != "") = true := by simpa using hg
    have ht' : (t != "") = true := by simpa using ht
    have hfile' : ((toString o ++ "_offset_" ++ toString p ++ "_partition.json.gz") != "") = true := by
      simpa using hfile
    by_cases hmv : mv ≠ ""
    · have hmv' : (mv != "") = true := by simpa using hmv
      rw [constructS3key, if_pos hmv, if_pos hmv]
      show filepathJoin [dir, gid, t, mv, toString o ++ "_offset_" ++ toString p ++
        "_partition.json.gz"] = _
      rw [filepathJoin]
      simp only [List.filter, hd', hg', ht', hmv', String.append_assoc] at hfile' ⊢
      simp only [hfile']
      simp [joinNonEmpty, String.append_assoc]
    · rw [constructS3key, if_neg hmv, if_neg hmv]
      show filepathJoin [dir, gid, t, toString o ++ "_offset_" ++ toString p ++
        "_partition.json.gz"] = _
      rw [filepathJoin]
      simp only [List.filter, hd', hg', ht', String.append_assoc] at hfile' ⊢
      simp only [hfile']
      simp [joinNonEmpty, String.append_assoc]
  · intro env b m rest i resp' total' h
    exact (processMessagesGo_fresh_spec rfl h).1

/-- C7 witness: the happy-batch key, with no mask file version configured. -/
theorem c7_construct_s3_key_witness :
    ("bucketDir" : String) ≠ "" ∧
    (constructS3key "" "bucketDir" "g1-test-batcher" "orders" 0 100 =
      "bucketDir" ++ "/" ++ "g1-test-batcher" ++ "/" ++ "orders" ++ "/" ++
        (if ("" : String) ≠ "" then "" ++ "/" else "") ++
        (toString (100 : Int) ++ "_offset_" ++ toString (0 : Int) ++
          "_partition.json.gz")) :=
  ⟨by decide,
   (c7_construct_s3_key "" "bucketDir" "g1-test-batcher" "orders" 0 100
     (by decide) (by decide) (by decide)).1⟩

/-- Embedding of `tipocav1.ReleaseCondition` (used for both the global and the
per-topic release conditions of the RedshiftSink spec). -/
structure ReleaseCondition where
  maxBatcherLag : Option Int
  maxLoaderLag : Option Int
deriving DecidableEq

/-- Embedding of `realtimeCalculator.maxLag`. The default constants
`DefaultMaxBatcherLag` / `DefautMaxLoaderLag` are defined outside the given
sources, so they are passed as the first two arguments; `releaseCondition` and
`topicReleaseCondition` are the corresponding RedshiftSink spec fields. Note
the two lag variables start at the Go zero value 0 inside the non-nil branch. -/
def maxLag (defaultMaxBatcherLag defaultMaxLoaderLag : Int)
    (releaseCondition : Option ReleaseCondition)
    (topicReleaseCondition : Option (List (String × ReleaseCondition)))
    (topic : String) : Int × Int :=
  match releaseCondition with
  | none => (defaultMaxBatcherLag, defaultMaxLoaderLag)
  | some rc =>
    let maxBatcherLag : Int := match rc.maxBatcherLag with | some v => v | none => 0
    let maxLoaderLag : Int := match rc.maxLoaderLag with | some v => v | none => 0
    match topicReleaseCondition with
    | none => (maxBatcherLag, maxLoaderLag)
    | some trc =>
      match lookupAssoc trc topic with
      | none => (maxBatcherLag, maxLoaderLag)
      | some d =>
        (match d.maxBatcherLag with | some v => v | none => maxBatcherLag,
         match d.maxLoaderLag with | some v => v | none => maxLoaderLag)

/-- Resolution of one lag with the precedence the spec states:
per-topic value, else global value, else the fallback. -/
def resolveLag (perTopic : Option Int) (global : Option Int) (fallback : Int) : Int :=
  match perTopic with
  | some v => v
  | none => match global with | some v => v | none => fallback

/-- The lag resolution exactly as the claim words it: for each of the two lags
independently, per-topic release condition → global release condition →
default. (Refinement reference for C3; written from the claim, not the code.) -/
def maxLagClaim (defaultMaxBatcherLag defaultMaxLoaderLag : Int)
    (releaseCondition : Option ReleaseCondition)
    (topicReleaseCondition : Option (List (String × ReleaseCondition)))
    (topic : String) : Int × Int :=
  let d := match topicReleaseCondition with
           | none => none
           | some trc => lookupAssoc trc topic
  (resolveLag (d.bind (fun x => x.maxBatcherLag))
     (releaseCondition.bind (fun x => x.maxBatcherLag)) defaultMaxBatcherLag,
   resolveLag (d.bind (fun x => x.maxLoaderLag))
     (releaseCondition.bind (fun x => x.maxLoaderLag)) defaultMaxLoaderLag)

/-- The amended resolution rule: when the global release condition object is
absent both lags are the defaults and per-topic conditions are ignored; when it
is present, each lag is the per-topic value if present, else the global value
if present, else 0 (not the default). -/
def maxLagAmended (defaultMaxBatcherLag defaultMaxLoaderLag : Int)
    (releaseCondition : Option ReleaseCondition)
    (topicReleaseCondition : Option (List (String × ReleaseCondition)))
    (topic : String) : Int × Int :=
  match releaseCondition with
  | none => (defaultMaxBatcherLag, defaultMaxLoaderLag)
  | some rc =>
    let d := match topicReleaseCondition with
             | none => none
             | some trc => lookupAssoc trc topic
    (resolveLag (d.bind (fun x => x.maxBatcherLag)) rc.maxBatcherLag 0,
     resolveLag (d.bind (fun x => x.maxLoaderLag)) rc.maxLoaderLag 0)

/-- C3 counterexample: with loader/batcher defaults 100/10, no global release
condition, and a per-topic release condition (7, 8) for topic `orders`, the
code returns the defaults (ignoring the per-topic condition), while the claimed
precedence would return (7, 8). -/
theorem c3_lag_precedence_counterexample :
    maxLag 100 10 none
        (some [("orders", { maxBatcherLag := some 7, maxLoaderLag := some 8 })])
        "orders" = (100, 10) ∧
    maxLagClaim 100 10 none
        (some [("orders", { maxBatcherLag := some 7, maxLoaderLag := some 8 })])
        "orders" = (7, 8) ∧
    maxLag 100 10 none
        (some [("orders", { maxBatcherLag := some 7, maxLoaderLag := some 8 })])
        "orders" ≠
      maxLagClaim 100 10 none
        (some [("orders", { maxBatcherLag := some 7, maxLoaderLag := some 8 })])
        "orders" := by
  refine ⟨by decide, by decide, by decide⟩

/-- C3 amended: `maxLag` resolves the two lags as follows — if the global
release condition is absent, both lags are the defaults and any per-topic
condition is ignored; if it is present, each lag independently is the per-topic
value if present, else the global value if present, else 0. -/
theorem c3_lag_precedence_amended (defB defL : Int)
    (rc : Option ReleaseCondition)
    (trc : Option (List (String × ReleaseCondition))) (topic : String) :
    maxLag defB defL rc trc topic = maxLagAmended defB defL rc trc topic := by
  cases rc with
  | none => rfl
  | some rc =>
    cases trc with
    | none =>
      cases hb : rc.maxBatcherLag <;> cases hl : rc.maxLoaderLag <;>
        simp [maxLag, maxLagAmended, resolveLag, hb, hl]
    | some trc =>
      cases hd : lookupAssoc trc topic with
      | none =>
        cases hb : rc.maxBatcherLag <;> cases hl : rc.maxLoaderLag <;>
          simp [maxLag, maxLagAmended, resolveLag, hb, hl, hd]
      | some d =>
        cases hb : rc.maxBatcherLag <;> cases hl : rc.maxLoaderLag <;>
          cases hdb : d.maxBatcherLag <;> cases hdl : d.maxLoaderLag <;>
            simp [maxLag, maxLagAmended, resolveLag, hb, hl, hd, hdb, hdl]

/-- Embedding of `offsetPosition` (pointer fields become `Option`). -/
structure OffsetPosition where
  last : Option Int
  current : Option Int
deriving DecidableEq

/-- Embedding of `topicRealtimeInfo`. The two pointer fields `batcher` and
`loader` are `Option`, since the flags-only cache entry stored by `calculate`
on the error path leaves them nil. -/
structure TopicRealtimeInfo where
  lastUpdate : Option Int
  batcher : Option OffsetPosition
  loader : Option OffsetPosition
  batcherRealtime : Bool
  loaderRealtime : Bool
deriving DecidableEq

/-- Embedding of `tipocav1.Group` (a TopicGroup): group id and the persisted
loader current offset. Named `TopicGroup` because `Group` is taken by Mathlib. -/
structure TopicGroup where
  id : String
  loaderCurrentOffset : Option Int
deriving DecidableEq

/-- Embedding of the `kafka.Watcher` interface: the topic list and the two
offset queries, each of which can fail. `CurrentOffset` returns -1 for a
missing consumer group. -/
structure Watcher where
  topics : Except String (List String)
  lastOffset : String → Int → Except String Int
  currentOffset : String → String → Int → Except String Int

/-- Modelled from the spec: the `consumerGroupID` helper is defined outside the
given sources; section 6 gives the naming convention
`{sinkName}-{sinkNamespace}-{groupID}{-batcher|-loader}` (the suffix argument
carries its own leading dash at the call sites). -/
def consumerGroupID (sinkName sinkNamespace groupID suffix : String) : String :=
  sinkName ++ "-" ++ sinkNamespace ++ "-" ++ groupID ++ suffix

/-- Result of `fetchRealtimeInfo`: the info, the TopicGroup update performed
via `updateTopicGroup` when the loader current offset was re-queried
successfully, and the returned error if any (Go returns the partial info
together with the error). -/
structure FetchResult where
  info : TopicRealtimeInfo
  updatedGroup : Option TopicGroup
  fetchError : Option String
deriving DecidableEq

/-- Embedding of `realtimeCalculator.fetchRealtimeInfo`. `now` models
`time.Now().UnixNano()` taken at entry. -/
def fetchRealtimeInfo (w : Watcher) (rskName rskNamespace : String) (now : Int)
    (topic : String) (loaderTopic : Option String) (group : TopicGroup) : FetchResult :=
  let info : TopicRealtimeInfo :=
    { lastUpdate := some now, batcher := some ⟨none, none⟩, loader := some ⟨none, none⟩
      batcherRealtime := false, loaderRealtime := false }
  match w.lastOffset topic 0 with
  | .error _ =>
    { info := info, updatedGroup := none
      fetchError := some ("Error getting last offset for " ++ topic) }
  | .ok batcherLast =>
    let info := { info with batcher := some ⟨some batcherLast, none⟩ }
    match w.currentOffset (consumerGroupID rskName rskNamespace group.id "-batcher")
        topic 0 with
    | .error e => { info := info, updatedGroup := none, fetchError := some e }
    | .ok batcherCurrent =>
      if batcherCurrent = -1 then
        -- batcher consumer group 404: current stays nil, not realtime
        { info := info, updatedGroup := none, fetchError := none }
      else
        let info := { info with batcher := some ⟨some batcherLast, some batcherCurrent⟩ }
        match loaderTopic with
        | none => { info := info, updatedGroup := none, fetchError := none }
        | some lt =>
          match w.lastOffset lt 0 with
          | .error _ =>
            { info := info, updatedGroup := none
              fetchError := some ("Error getting last offset for " ++ lt) }
          | .ok loaderLast =>
            let info := { info with loader := some ⟨some loaderLast, none⟩ }
            match w.currentOffset
                (consumerGroupID rskName rskNamespace group.id "-loader") lt 0 with
            | .error e => { info := info, updatedGroup := none, fetchError := some e }
            | .ok loaderCurrent =>
              if loaderCurrent = -1 then
                match group.loaderCurrentOffset with
                | none =>
                  -- loader consumer group 404 and nothing persisted: not realtime
                  { info := info, updatedGroup := none, fetchError := none }
                | some v =>
                  -- give the topic the opportunity to release on the persisted offset
                  { info := { info with loader := some ⟨some loaderLast, some v⟩ }
                    updatedGroup := none, fetchError := none }
              else
                { info := { info with loader := some ⟨some loaderLast, some loaderCurrent⟩ }
                  updatedGroup := some { group with loaderCurrentOffset := some loaderCurrent }
                  fetchError := none }

/-- Modelled from the spec: `cacheValid` is defined outside the given sources;
per (I4) a cache entry is valid for the given duration (in nanoseconds) from
`lastUpdate`. -/
def cacheValid (validNanos : Int) (lastUpdate : Int) (now : Int) : Bool :=
  now - lastUpdate < validNanos

/-- Embedding of `realtimeCalculator.fetchRealtimeCache`. The uniformly random
draw `rand.Intn(120) + 120` (an integer number of seconds in [120, 240)) is the
`validSec` argument; `now` models the probe time. A cache entry whose
`lastUpdate` is nil would fault in Go; such entries are never stored, and the
model treats them as a miss. -/
def fetchRealtimeCache (cache : List (String × TopicRealtimeInfo))
    (validSec : Int) (now : Int) (topic : String) : Option TopicRealtimeInfo :=
  match lookupAssoc cache topic with
  | none => none
  | some info =>
    match info.lastUpdate with
    | none => none
    | some t0 =>
      if cacheValid (validSec * 1000000000) t0 now then some info else none

/-- Environment of one `calculate` run: the watcher, the RedshiftSink identity
and spec fields, the default lag constants (defined outside the given sources),
the TopicGroup status map, the per-probe random validity draw and the probe
time (`now` is taken once per loop iteration in Go; the model uses one value).
The source field `kafkaLoaderTopicPrefix` is named `kafkaLoaderTopicPref`. -/
structure CalcEnv where
  watcher : Watcher
  rskName : String
  rskNamespace : String
  kafkaLoaderTopicPref : String
  releaseCondition : Option ReleaseCondition
  topicReleaseCondition : Option (List (String × ReleaseCondition))
  defaultMaxBatcherLag : Int
  defaultMaxLoaderLag : Int
  topicGroups : List (String × TopicGroup)
  validSec : String → Int
  now : Int

/-- Mutable state threaded through `calculate`: the realtime cache, the
returned realtime topic list, the calculator receiver fields
(`batchersRealtime`, `loadersRealtime`, `batchersLast`, `loadersLast`) and the
TopicGroup updates applied through `updateTopicGroup`. -/
structure CalcState where
  cache : List (String × TopicRealtimeInfo)
  realtimeTopics : List String
  batchersRealtime : List String
  loadersRealtime : List String
  batchersLast : List (String × Int)
  loadersLast : List (String × Int)
  updatedGroups : List (String × TopicGroup)
deriving DecidableEq

/-- The loader topic name `{prefix}{groupID}-{topic}` built in `calculate`. -/
def loaderTopicName (env : CalcEnv) (group : TopicGroup) (topic : String) : String :=
  env.kafkaLoaderTopicPref ++ group.id ++ "-" ++ topic

/-- The loader-topic argument passed to `fetchRealtimeInfo`: present iff the
loader topic exists in the bus topic list. -/
def loaderTopicOpt (env : CalcEnv) (allTopicsList : List String)
    (group : TopicGroup) (topic : String) : Option String :=
  if loaderTopicName env group topic ∈ allTopicsList then
    some (loaderTopicName env group topic)
  else none

/-- The batcher half of the compute-realtime section of the `calculate` loop
body: sets `batcherRealtime` when the lag is within the bound, appends to
`batchersRealtime` and `batchersLast`. -/
def batcherSideCheck (topic : String) (maxBatcherLag : Int)
    (info : TopicRealtimeInfo) (st : CalcState) : TopicRealtimeInfo × CalcState :=
  match info.batcher with
  | none => (info, st)
  | some bp =>
    match bp.last with
    | none => (info, st)
    | some blast =>
      let inner : TopicRealtimeInfo × CalcState :=
        match bp.current with
        | none => (info, st)
        | some bcur =>
          if blast - bcur ≤ maxBatcherLag then
            ({ info with batcherRealtime := true },
             { st with batchersRealtime := st.batchersRealtime ++ [topic] })
          else (info, st)
      (inner.1, { inner.2 with batchersLast := inner.2.batchersLast ++ [(topic, blast)] })

/-- The loader half of the compute-realtime section of the `calculate` loop
body. -/
def loaderSideCheck (ltopic : String) (maxLoaderLag : Int)
    (info : TopicRealtimeInfo) (st : CalcState) : TopicRealtimeInfo × CalcState :=
  match info.loader with
  | none => (info, st)
  | some lp =>
    match lp.last with
    | none => (info, st)
    | some llast =>
      let inner : TopicRealtimeInfo × CalcState :=
        match lp.current with
        | none => (info, st)
        | some lcur =>
          if llast - lcur ≤ maxLoaderLag then
            ({ info with loaderRealtime := true },
             { st with loadersRealtime := st.loadersRealtime ++ [ltopic] })
          else (info, st)
      (inner.1, { inner.2 with loadersLast := inner.2.loadersLast ++ [(ltopic, llast)] })

/-- Embedding of the compute-realtime section at the end of the `calculate`
loop body (lag comparison per side, the `last` bookkeeping lists, the final
append to `realtimeTopics`, the `lastUpdate` refresh on cache miss and the
cache store). -/
def computeTopicRealtime (env : CalcEnv) (topic ltopic : String) (hit : Bool)
    (info : TopicRealtimeInfo) (st : CalcState) : CalcState :=
  let lags := maxLag env.defaultMaxBatcherLag env.defaultMaxLoaderLag
    env.releaseCondition env.topicReleaseCondition topic
  let step1 := batcherSideCheck topic lags.1 info st
  let step2 := loaderSideCheck ltopic lags.2 step1.1 step1.2
  let info := step2.1
  let st := step2.2
  let st :=
    if info.batcherRealtime && info.loaderRealtime then
      { st with realtimeTopics := st.realtimeTopics ++ [topic] }
    else st
  let info := if hit then info else { info with lastUpdate := some env.now }
  { st with cache := storeAssoc st.cache topic info }

/-- Embedding of the body of the `for _, topic := range reloading` loop of
`realtimeCalculator.calculate`. `currentMap` is `toMap(currentRealtime)`,
`allTopicsList` the fetched bus topics. -/
def calculateStep (env : CalcEnv) (currentMap : List String)
    (allTopicsList : List String) (st : CalcState) (topic : String) : CalcState :=
  match lookupAssoc env.topicGroups topic with
  | none => st
  | some group =>
    let ltopic := loaderTopicName env group topic
    let loaderTopic := loaderTopicOpt env allTopicsList group topic
    match fetchRealtimeCache st.cache (env.validSec topic) env.now topic with
    | some info => computeTopicRealtime env topic ltopic true info st
    | none =>
      let fr := fetchRealtimeInfo env.watcher env.rskName env.rskNamespace env.now
        topic loaderTopic group
      let st :=
        match fr.updatedGroup with
        | none => st
        | some g => { st with updatedGroups := storeAssoc st.updatedGroups topic g }
      match fr.fetchError with
      | some _ =>
        if topic ∈ currentMap then
          -- fetch failed but the topic was already realtime: keep it realtime
          { st with
            cache := storeAssoc st.cache topic
              { lastUpdate := some env.now, batcher := none, loader := none
                batcherRealtime := true, loaderRealtime := true }
            realtimeTopics := st.realtimeTopics ++ [topic]
            batchersRealtime := st.batchersRealtime ++ [topic]
            loadersRealtime := st.loadersRealtime ++ [ltopic] }
        else
          computeTopicRealtime env topic ltopic false fr.info st
      | none => computeTopicRealtime env topic ltopic false fr.info st

/-- Embedding of `realtimeCalculator.calculate`: empty `reloading` or a failed
`Topics()` query return `currentRealtime` unchanged; otherwise the loop body
runs over `reloading` (the local `realtimeTopics` starts empty) and the
collected realtime topic list is returned. Errors are never returned. -/
def calculate (env : CalcEnv) (st0 : CalcState)
    (reloading currentRealtime : List String) : List String × CalcState :=
  if reloading.isEmpty then (currentRealtime, st0)
  else
    match env.watcher.topics with
    | .error _ => (currentRealtime, st0)
    | .ok allTopicsList =>
      let stStart := { st0 with realtimeTopics := [] }
      let final := reloading.foldl
        (fun st topic => calculateStep env currentRealtime allTopicsList st topic) stStart
      (final.realtimeTopics, final)

theorem batcherSideCheck_realtimeTopics (topic : String) (lag : Int)
    (info : TopicRealtimeInfo) (st : CalcState) :
    (batcherSideCheck topic lag info st).2.realtimeTopics = st.realtimeTopics := by
  unfold batcherSideCheck
  cases hb : info.batcher with
  | none => rfl
  | some bp =>
    obtain ⟨bl, bc⟩ := bp
    cases bl with
    | none => rfl
    | some blast =>
      cases bc with
      | none => rfl
      | some bcur => by_cases hc : blast - bcur ≤ lag <;> simp [hc]

theorem batcherSideCheck_loaderFields (topic : String) (lag : Int)
    (info : TopicRealtimeInfo) (st : CalcState) :
    (batcherSideCheck topic lag info st).1.loaderRealtime = info.loaderRealtime ∧
    (batcherSideCheck topic lag info st).1.loader = info.loader := by
  unfold batcherSideCheck
  cases hb : info.batcher with
  | none => exact ⟨rfl, rfl⟩
  | some bp =>
    obtain ⟨bl, bc⟩ := bp
    cases bl with
    | none => exact ⟨rfl, rfl⟩
    | some blast =>
      cases bc with
      | none => exact ⟨rfl, rfl⟩
      | some bcur => by_cases hc : blast - bcur ≤ lag <;> simp [hc]

theorem batcherSideCheck_flag_of_none (topic : String) (lag : Int)
    (info : TopicRealtimeInfo) (st : CalcState)
    (h : ∀ p, info.batcher = some p → p.current = none) :
    (batcherSideCheck topic lag info st).1.batcherRealtime = info.batcherRealtime := by
  unfold batcherSideCheck
  cases hb : info.batcher with
  | none => rfl
  | some bp =>
    obtain ⟨bl, bc⟩ := bp
    cases bl with
    | none => rfl
    | some blast =>
      cases bc with
      | none => rfl
      | some bcur =>
        have := h _ hb
        simp at this

theorem loaderSideCheck_batcherFlag (ltopic : String) (lag : Int)
    (info : TopicRealtimeInfo) (st : CalcState) :
    (loaderSideCheck ltopic lag info st).1.batcherRealtime = info.batcherRealtime := by
  unfold loaderSideCheck
  cases hb : info.loader with
  | none => rfl
  | some lp =>
    obtain ⟨ll, lc⟩ := lp
    cases ll with
    | none => rfl
    | some llast =>
      cases lc with
      | none => rfl
      | some lcur => by_cases hc : llast - lcur ≤ lag <;> simp [hc]

theorem loaderSideCheck_realtimeTopics (ltopic : String) (lag : Int)
    (info : TopicRealtimeInfo) (st : CalcState) :
    (loaderSideCheck ltopic lag info st).2.realtimeTopics = st.realtimeTopics := by
  unfold loaderSideCheck
  cases hb : info.loader with
  | none => rfl
  | some lp =>
    obtain ⟨ll, lc⟩ := lp
    cases ll with
    | none => rfl
    | some llast =>
      cases lc with
      | none => rfl
      | some lcur => by_cases hc : llast - lcur ≤ lag <;> simp [hc]

theorem loaderSideCheck_flag_of_none (ltopic : String) (lag : Int)
    (info : TopicRealtimeInfo) (st : CalcState)
    (h : ∀ p, info.loader = some p → p.current = none) :
    (loaderSideCheck ltopic lag info st).1.loaderRealtime = info.loaderRealtime := by
  unfold loaderSideCheck
  cases hb : info.loader with
  | none => rfl
  | some lp =>
    obtain ⟨ll, lc⟩ := lp
    cases ll with
    | none => rfl
    | some llast =>
      cases lc with
      | none => rfl
      | some lcur =>
        have := h _ hb
        simp at this

/-- If one of the two sides can never pass its lag check (flag false and no
current offset), the topic is not appended to `realtimeTopics`. -/
theorem computeTopicRealtime_no_append (env : CalcEnv) (topic ltopic : String)
    (hit : Bool) (info : TopicRealtimeInfo) (st : CalcState)
    (h : (info.batcherRealtime = false ∧ ∀ p, info.batcher = some p → p.current = none) ∨
         (info.loaderRealtime = false ∧ ∀ p, info.loader = some p → p.current = none)) :
    (computeTopicRealtime env topic ltopic hit info st).realtimeTopics =
      st.realtimeTopics := by
  unfold computeTopicRealtime
  set lags := maxLag env.defaultMaxBatcherLag env.defaultMaxLoaderLag
    env.releaseCondition env.topicReleaseCondition topic with hlags
  have hfinal : ((loaderSideCheck ltopic lags.2
      (batcherSideCheck topic lags.1 info st).1
      (batcherSideCheck topic lags.1 info st).2).1.batcherRealtime = false) ∨
      ((loaderSideCheck ltopic lags.2
      (batcherSideCheck topic lags.1 info st).1
      (batcherSideCheck topic lags.1 info st).2).1.loaderRealtime = false) := by
    rcases h with ⟨hflag, hcur⟩ | ⟨hflag, hcur⟩
    · left
      rw [loaderSideCheck_batcherFlag, batcherSideCheck_flag_of_none _ _ _ _ hcur, hflag]
    · right
      have hld := (batcherSideCheck_loaderFields topic lags.1 info st).2
      have hlf := (batcherSideCheck_loaderFields topic lags.1 info st).1
      rw [loaderSideCheck_flag_of_none _ _ _ _ (by rw [hld]; exact hcur), hlf, hflag]
  have hcond : ((loaderSideCheck ltopic lags.2
      (batcherSideCheck topic lags.1 info st).1
      (batcherSideCheck topic lags.1 info st).2).1.batcherRealtime &&
      (loaderSideCheck ltopic lags.2
      (batcherSideCheck topic lags.1 info st).1
      (batcherSideCheck topic lags.1 info st).2).1.loaderRealtime) = false := by
    rcases hfinal with hf | hf <;> simp [hf]
  simp only [hcond, Bool.false_eq_true, if_false]
  rw [loaderSideCheck_realtimeTopics, batcherSideCheck_realtimeTopics]

theorem fetchRealtimeInfo_error_shape {w : Watcher} {rskName rskNamespace : String}
    {now : Int} {topic : String} {loaderTopic : Option String} {group : TopicGroup}
    {e : String}
    (h : (fetchRealtimeInfo w rskName rskNamespace now topic loaderTopic group).fetchError =
      some e) :
    (fetchRealtimeInfo w rskName rskNamespace now topic loaderTopic group).updatedGroup =
      none ∧
    (fetchRealtimeInfo w rskName rskNamespace now topic loaderTopic
      group).info.batcherRealtime = false ∧
    (fetchRealtimeInfo w rskName rskNamespace now topic loaderTopic
      group).info.loaderRealtime = false ∧
    ((∀ p, (fetchRealtimeInfo w rskName rskNamespace now topic loaderTopic
        group).info.batcher = some p → p.current = none) ∨
     (∀ p, (fetchRealtimeInfo w rskName rskNamespace now topic loaderTopic
        group).info.loader = some p → p.current = none)) := by
  unfold fetchRealtimeInfo at h ⊢
  cases hbl : w.lastOffset topic 0 with
  | error e1 =>
    rw [hbl] at h
    refine ⟨rfl, rfl, rfl, Or.inl ?_⟩
    intro p hp
    simp only [Option.some.injEq] at hp
    rw [← hp]
  | ok batcherLast =>
    rw [hbl] at h
    dsimp only [] at h ⊢
    cases hbc : w.currentOffset (consumerGroupID rskName rskNamespace group.id "-batcher")
        topic 0 with
    | error e2 =>
      rw [hbc] at h
      refine ⟨rfl, rfl, rfl, Or.inl ?_⟩
      intro p hp
      simp only [Option.some.injEq] at hp
      rw [← hp]
    | ok batcherCurrent =>
      rw [hbc] at h
      dsimp only [] at h ⊢
      by_cases hneg : batcherCurrent = -1
      · rw [if_pos hneg] at h
        simp at h
      · rw [if_neg hneg] at h ⊢
        cases loaderTopic with
        | none => simp at h
        | some lt =>
          dsimp only [] at h ⊢
          cases hll : w.lastOffset lt 0 with
          | error e3 =>
            rw [hll] at h
            refine ⟨rfl, rfl, rfl, Or.inr ?_⟩
            intro p hp
            simp only [Option.some.injEq] at hp
            rw [← hp]
          | ok loaderLast =>
            rw [hll] at h
            dsimp only [] at h ⊢
            cases hlc : w.currentOffset
                (consumerGroupID rskName rskNamespace group.id "-loader") lt 0 with
            | error e4 =>
              rw [hlc] at h
              refine ⟨rfl, rfl, rfl, Or.inr ?_⟩
              intro p hp
              simp only [Option.some.injEq] at hp
              rw [← hp]
            | ok loaderCurrent =>
              rw [hlc] at h
              dsimp only [] at h ⊢
              by_cases hneg2 : loaderCurrent = -1
              · rw [if_pos hneg2] at h
                cases hgo : group.loaderCurrentOffset with
                | none => rw [hgo] at h; simp at h
                | some v => rw [hgo] at h; simp at h
              · rw [if_neg hneg2] at h
                simp at h

/-- C5: in the `calculate` loop body (`calculate` is the fold of
`calculateStep` over `reloading` and returns the collected list, never an
error), when the cache misses and `fetchRealtimeInfo` fails for a topic: if the
topic was realtime in the previous round it is appended to the realtime set and
cached with both realtime flags true; otherwise the realtime set is left
unchanged (the topic is excluded for this round). -/
theorem c5_fetch_error_keeps_previous_realtime (env : CalcEnv)
    (currentMap allTopicsList : List String) (st : CalcState) (topic : String)
    (group : TopicGroup)
    (hg : lookupAssoc env.topicGroups topic = some group)
    (hmiss : fetchRealtimeCache st.cache (env.validSec topic) env.now topic = none)
    (herr : ∃ e, (fetchRealtimeInfo env.watcher env.rskName env.rskNamespace env.now
      topic (loaderTopicOpt env allTopicsList group topic) group).fetchError = some e) :
    (topic ∈ currentMap →
      (calculateStep env currentMap allTopicsList st topic).realtimeTopics =
        st.realtimeTopics ++ [topic] ∧
      lookupAssoc (calculateStep env currentMap allTopicsList st topic).cache topic =
        some { lastUpdate := some env.now, batcher := none, loader := none
               batcherRealtime := true, loaderRealtime := true }) ∧
    (topic ∉ currentMap →
      (calculateStep env currentMap allTopicsList st topic).realtimeTopics =
        st.realtimeTopics) := by
  obtain ⟨e, herr⟩ := herr
  obtain ⟨hupd, hbf, hlf, hdisj⟩ := fetchRealtimeInfo_error_shape herr
  unfold calculateStep
  rw [hg]
  dsimp only [] at hupd ⊢
  rw [hmiss]
  dsimp only []
  rw [hupd, herr]
  dsimp only []
  constructor
  · intro hcur
    rw [if_pos hcur]
    exact ⟨rfl, lookupAssoc_storeAssoc _ _ _⟩
  · intro hcur
    rw [if_neg hcur]
    apply computeTopicRealtime_no_append
    rcases hdisj with hd | hd
    · exact Or.inl ⟨hbf, hd⟩
    · exact Or.inr ⟨hlf, hd⟩

/-- A concrete watcher whose loader current-offset query fails (all other
queries succeed), for the C5 witness. -/
def failingLoaderWatcher : Watcher :=
  { topics := .ok ["orders", "loader-main-orders"]
    lastOffset := fun _ _ => .ok 1000
    currentOffset := fun cg _ _ =>
      if cg = "rsk-ns-main-loader" then .error "broker timeout" else .ok 995 }

/-- A concrete calculator environment around `failingLoaderWatcher`. -/
def failingLoaderEnv : CalcEnv :=
  { watcher := failingLoaderWatcher
    rskName := "rsk"
    rskNamespace := "ns"
    kafkaLoaderTopicPref := "loader-"
    releaseCondition := none
    topicReleaseCondition := none
    defaultMaxBatcherLag := 100
    defaultMaxLoaderLag := 10
    topicGroups := [("orders", { id := "main", loaderCurrentOffset := none })]
    validSec := fun _ => 150
    now := 1000000000000
  }

/-- The empty calculator state. -/
def emptyCalcState : CalcState :=
  { cache := [], realtimeTopics := [], batchersRealtime := [], loadersRealtime := []
    batchersLast := [], loadersLast := [], updatedGroups := [] }

/-- C5 witness: with the failing loader query, the topic stays realtime when it
was realtime before (appended and cached with both flags true), and is excluded
when it was not. -/
theorem c5_fetch_error_keeps_previous_realtime_witness :
    ("orders" ∈ ["orders"] →
      (calculateStep failingLoaderEnv ["orders"] ["orders", "loader-main-orders"]
        emptyCalcState "orders").realtimeTopics = emptyCalcState.realtimeTopics ++ ["orders"] ∧
      lookupAssoc (calculateStep failingLoaderEnv ["orders"] ["orders", "loader-main-orders"]
        emptyCalcState "orders").cache "orders" =
        some { lastUpdate := some failingLoaderEnv.now, batcher := none, loader := none
               batcherRealtime := true, loaderRealtime := true }) ∧
    ("orders" ∉ ["orders"] →
      (calculateStep failingLoaderEnv ["orders"] ["orders", "loader-main-orders"]
        emptyCalcState "orders").realtimeTopics = emptyCalcState.realtimeTopics) :=
  c5_fetch_error_keeps_previous_realtime failingLoaderEnv ["orders"]
    ["orders", "loader-main-orders"] emptyCalcState "orders"
    { id := "main", loaderCurrentOffset := none }
    (by decide) (by decide) ⟨"broker timeout", by decide⟩

/-- C4: in `fetchRealtimeInfo`, once the batcher side succeeded (current
offset found) and the loader topic and its last offset are known, the loader
current-offset query decides: on -1 with a persisted `LoaderCurrentOffset` the
persisted value becomes the loader current offset used by the lag computation
(no TopicGroup update, no error); on -1 without a persisted value the loader
current offset stays nil and no state with this info ever appends the topic to
the realtime set; on a value ≥ 0 that value is used and persisted to the
TopicGroup. -/
theorem c4_loader_current_offset_fallback (w : Watcher)
    (rskName rskNamespace : String) (now : Int) (topic lt : String)
    (group : TopicGroup) (bl bc ll : Int)
    (h1 : w.lastOffset topic 0 = .ok bl)
    (h2 : w.currentOffset (consumerGroupID rskName rskNamespace group.id "-batcher")
      topic 0 = .ok bc)
    (h3 : bc ≠ -1)
    (h4 : w.lastOffset lt 0 = .ok ll) :
    ∀ res, w.currentOffset (consumerGroupID rskName rskNamespace group.id "-loader")
      lt 0 = .ok res →
    ((res = -1 → ∀ v, group.loaderCurrentOffset = some v →
        (fetchRealtimeInfo w rskName rskNamespace now topic (some lt) group).info.loader =
          some ⟨some ll, some v⟩ ∧
        (fetchRealtimeInfo w rskName rskNamespace now topic (some lt) group).fetchError =
          none ∧
        (fetchRealtimeInfo w rskName rskNamespace now topic (some lt) group).updatedGroup =
          none) ∧
     (res = -1 → group.loaderCurrentOffset = none →
        (fetchRealtimeInfo w rskName rskNamespace now topic (some lt) group).info.loader =
          some ⟨some ll, none⟩ ∧
        (fetchRealtimeInfo w rskName rskNamespace now topic (some lt) group).fetchError =
          none ∧
        (∀ (env : CalcEnv) (ltopic : String) (hit : Bool) (st : CalcState),
          (computeTopicRealtime env topic ltopic hit
            (fetchRealtimeInfo w rskName rskNamespace now topic (some lt) group).info
            st).realtimeTopics = st.realtimeTopics)) ∧
     (res ≥ 0 →
        (fetchRealtimeInfo w rskName rskNamespace now topic (some lt) group).info.loader =
          some ⟨some ll, some res⟩ ∧
        (fetchRealtimeInfo w rskName rskNamespace now topic (some lt) group).updatedGroup =
          some { group with loaderCurrentOffset := some res })) := by
  intro res hres
  unfold fetchRealtimeInfo
  rw [h1]
  try dsimp only []
  rw [h2]
  try dsimp only []
  rw [if_neg h3]
  try dsimp only []
  rw [h4]
  try dsimp only []
  rw [hres]
  try dsimp only []
  refine ⟨?_, ?_, ?_⟩
  · intro hm1 v hv
    rw [if_pos hm1, hv]
    exact ⟨rfl, rfl, rfl⟩
  · intro hm1 hnone
    rw [if_pos hm1, hnone]
    refine ⟨rfl, rfl, ?_⟩
    intro env ltopic hit st
    apply computeTopicRealtime_no_append
    right
    constructor
    · rfl
    · intro p hp
      simp only [Option.some.injEq] at hp
      rw [← hp]
  · intro hge
    have : res ≠ -1 := by omega
    rw [if_neg this]
    exact ⟨rfl, rfl⟩

/-- A concrete watcher for the C4 witness: the loader consumer group is gone
(current offset -1) while a loader current offset 5000 is persisted on the
TopicGroup; the loader last offset is 5050. -/
def staleLoaderWatcher : Watcher :=
  { topics := .ok ["orders", "loader-main-orders"]
    lastOffset := fun t _ => if t = "loader-main-orders" then .ok 5050 else .ok 1000
    currentOffset := fun cg _ _ =>
      if cg = "rsk-ns-main-loader" then .ok (-1) else .ok 995 }

/-- C4 witness: the stale-loader-group scenario; the persisted offset 5000 is
used as the loader current offset, nothing is re-persisted and no error is
returned. -/
theorem c4_loader_current_offset_fallback_witness :
    ((-1 : Int) = -1 →
      ∀ v, (({ id := "main", loaderCurrentOffset := some 5000 } : TopicGroup)).loaderCurrentOffset = some v →
      (fetchRealtimeInfo staleLoaderWatcher "rsk" "ns" 7 "orders" (some "loader-main-orders")
        { id := "main", loaderCurrentOffset := some 5000 }).info.loader =
        some ⟨some 5050, some v⟩ ∧
      (fetchRealtimeInfo staleLoaderWatcher "rsk" "ns" 7 "orders" (some "loader-main-orders")
        { id := "main", loaderCurrentOffset := some 5000 }).fetchError = none ∧
      (fetchRealtimeInfo staleLoaderWatcher "rsk" "ns" 7 "orders" (some "loader-main-orders")
        { id := "main", loaderCurrentOffset := some 5000 }).updatedGroup = none) ∧
    ((fetchRealtimeInfo staleLoaderWatcher "rsk" "ns" 7 "orders" (some "loader-main-orders")
        { id := "main", loaderCurrentOffset := some 5000 }).info.loader =
      some ⟨some 5050, some 5000⟩) :=
  ⟨(c4_loader_current_offset_fallback staleLoaderWatcher "rsk" "ns" 7 "orders"
      "loader-main-orders" { id := "main", loaderCurrentOffset := some 5000 }
      1000 995 5050 rfl rfl (by decide) rfl
      (-1) rfl).1,
   by decide⟩

/-- C6: a probe of `fetchRealtimeCache` with a validity draw in [120, 240)
seconds hits for every entry younger than 120s, misses for every entry at least
240s old, and in between hits exactly when the entry is younger than the drawn
validity (so no entry is valid at 240s or beyond, nor invalidated before
120s). -/
theorem c6_cache_validity_window (cache : List (String × TopicRealtimeInfo))
    (topic : String) (info : TopicRealtimeInfo) (t0 validSec now : Int)
    (hentry : lookupAssoc cache topic = some info)
    (hts : info.lastUpdate = some t0)
    (hlo : 120 ≤ validSec) (hhi : validSec < 240) :
    (now - t0 < 120 * 1000000000 →
      fetchRealtimeCache cache validSec now topic = some info) ∧
    (now - t0 ≥ 240 * 1000000000 →
      fetchRealtimeCache cache validSec now topic = none) ∧
    (fetchRealtimeCache cache validSec now topic = some info ↔
      now - t0 < validSec * 1000000000) := by
  unfold fetchRealtimeCache
  rw [hentry]
  dsimp only []
  rw [hts]
  dsimp only []
  refine ⟨?_, ?_, ?_⟩
  · intro hyoung
    have hc : now - t0 < validSec * 1000000000 := by omega
    simp [cacheValid, hc]
  · intro hold
    have hc : ¬(now - t0 < validSec * 1000000000) := by omega
    simp [cacheValid, hc]
  · by_cases hc : now - t0 < validSec * 1000000000
    · simp [cacheValid, hc]
    · simp [cacheValid, hc]

/-- A concrete cache entry for the C6 witness, inserted at time 0 (ns). -/
def cachedTrueInfo : TopicRealtimeInfo :=
  { lastUpdate := some 0, batcher := none, loader := none
    batcherRealtime := true, loaderRealtime := true }

/-- C6 witness: entry inserted at t0 = 0, validity draw 150s, probe at 60s —
within 120s, so a guaranteed hit (and the 60s probe is inside the drawn
validity window). -/
theorem c6_cache_validity_window_witness :
    ((60000000000 : Int) - 0 < 120 * 1000000000 →
      fetchRealtimeCache [("orders", cachedTrueInfo)] 150 60000000000 "orders" =
        some cachedTrueInfo) ∧
    ((60000000000 : Int) - 0 ≥ 240 * 1000000000 →
      fetchRealtimeCache [("orders", cachedTrueInfo)] 150 60000000000 "orders" = none) ∧
    (fetchRealtimeCache [("orders", cachedTrueInfo)] 150 60000000000 "orders" =
        some cachedTrueInfo ↔ (60000000000 : Int) - 0 < 150 * 1000000000) :=
  c6_cache_validity_window [("orders", cachedTrueInfo)] "orders" cachedTrueInfo
    0 150 60000000000 (by decide) (by decide) (by decide) (by decide)

/-- How one iteration of `Manager.Consume` ends: empty topic snapshot (sleep
5s and retry), `klog.Fatalf` on a consumer error (process exit), return on a
cancelled context, or re-entering the loop. -/
inductive ConsumeIterResult
  | sleepRetry
  | fatal (e : String)
  | finished
  | reloop
deriving DecidableEq

/-- Embedding of one iteration of `Manager.Consume` from
`kafka-go/pkg/consumer/manager.go`: `topics` is the deep-copied snapshot,
`consumeErr` the error returned by the blocking `consumerGroup.Consume` call
(`none` on a normal session end such as a rebalance), and `ctxCancelled`
whether `ctx.Err() != nil` afterwards. -/
def consumeIteration (topics : List String) (consumeErr : Option String)
    (ctxCancelled : Bool) : ConsumeIterResult :=
  if topics.isEmpty then .sleepRetry
  else
    match consumeErr with
    | some e => .fatal e
    | none => if ctxCancelled then .finished else .reloop

/-- C8 counterexample: when the blocking `Consume` returns a transient-network
error, the Manager does not re-enter its loop — it calls `klog.Fatalf`, which
terminates the process. -/
theorem c8_consume_error_counterexample :
    consumeIteration ["db.orders"] (some "read tcp: connection reset") false =
      ConsumeIterResult.fatal "read tcp: connection reset" ∧
    ¬(consumeIteration ["db.orders"] (some "read tcp: connection reset") false =
      ConsumeIterResult.reloop) := by
  refine ⟨by decide, by decide⟩

/-- C8 amended: when `Consume` returns a non-nil error the Manager terminates
the process fatally; only a nil return (normal session teardown / rebalance)
re-enters the Consume loop when the context is still live, and returns when
the context is cancelled. -/
theorem c8_consume_error_is_fatal (topics : List String) (e : String)
    (h : topics ≠ []) :
    (∀ ctxCancelled, consumeIteration topics (some e) ctxCancelled =
      ConsumeIterResult.fatal e) ∧
    consumeIteration topics none false = ConsumeIterResult.reloop ∧
    consumeIteration topics none true = ConsumeIterResult.finished := by
  have hne : topics.isEmpty = false := by
    cases topics with
    | nil => exact absurd rfl h
    | cons a rest => rfl
  refine ⟨fun ctxCancelled => ?_, ?_, ?_⟩ <;>
    simp [consumeIteration, hne]

/-- C8 amended witness. -/
theorem c8_consume_error_is_fatal_witness :
    (∀ ctxCancelled, consumeIteration ["db.orders"] (some "i/o timeout") ctxCancelled =
      ConsumeIterResult.fatal "i/o timeout") ∧
    consumeIteration ["db.orders"] none false = ConsumeIterResult.reloop ∧
    consumeIteration ["db.orders"] none true = ConsumeIterResult.finished :=
  c8_consume_error_is_fatal ["db.orders"] "i/o timeout" (by decide)

/-- One consumer-group entry of the redshiftbatcher configuration. -/
structure GroupConfig where
  groupID : String
  topicRegexes : String
deriving DecidableEq

/-- Faults of the registration loop in `run` of `cmd/redshiftbatcher/main.go`:
`configExit` is the `os.Exit(1)` taken when creating a consumer group fails;
`nilMapAssignment` is the runtime panic of an assignment to an entry of a nil
map. -/
inductive RunFault
  | configExit
  | nilMapAssignment
deriving DecidableEq

/-- Assignment `m[k] = v` on a Go map value: a nil map (`none`) faults. -/
def goMapAssign {α : Type} (m : Option (List (String × α))) (k : String) (v : α) :
    Except RunFault (Option (List (String × α))) :=
  match m with
  | none => .error .nilMapAssignment
  | some entries => .ok (some (storeAssoc entries k v))

/-- The registration loop of `run`: for each configured consumer group, create
the group client (exit 1 on error) and execute
`consumerGroups[groupID] = consumerGroup`. -/
def runRegistrationGo {α : Type} (newConsumerGroup : GroupConfig → Except String α) :
    List GroupConfig → Option (List (String × α)) →
    Except RunFault (Option (List (String × α)))
  | [], m => .ok m
  | cfg :: rest, m =>
    match newConsumerGroup cfg with
    | .error _ => .error .configExit
    | .ok consumerGroup =>
      match goMapAssign m cfg.groupID consumerGroup with
      | .error f => .error f
      | .ok m2 => runRegistrationGo newConsumerGroup rest m2

/-- Embedding of the consumer-group registration part of `run`: the mapping is
declared `var consumerGroups map[string]consumer.ConsumerGroupInterface` and
never initialized, so the loop starts from the nil map `none`. -/
def runRegistration {α : Type} (newConsumerGroup : GroupConfig → Except String α)
    (configs : List GroupConfig) : Except RunFault (Option (List (String × α))) :=
  runRegistrationGo newConsumerGroup configs none

/-- C9: with at least one configured consumer group, `run` never completes its
registration loop normally, and whenever the first group client is created
successfully the loop faults precisely on the nil-map assignment
`consumerGroups[groupID] = consumerGroup` (the no-fault branch of that
assignment is unreachable: the map is never initialized). -/
theorem c9_nil_map_registration_faults {α : Type}
    (newConsumerGroup : GroupConfig → Except String α)
    (configs : List GroupConfig) (h : configs ≠ []) :
    (∀ m, runRegistration newConsumerGroup configs ≠ .ok m) ∧
    (∀ cfg rest, configs = cfg :: rest → ∀ a, newConsumerGroup cfg = .ok a →
      runRegistration newConsumerGroup configs = .error RunFault.nilMapAssignment) := by
  constructor
  · intro m hcontra
    cases configs with
    | nil => exact h rfl
    | cons cfg rest =>
      rw [runRegistration, runRegistrationGo] at hcontra
      cases hn : newConsumerGroup cfg with
      | error e => rw [hn] at hcontra; simp at hcontra
      | ok cg =>
        rw [hn] at hcontra
        dsimp only [] at hcontra
        simp [goMapAssign] at hcontra
  · intro cfg rest hconf a hok
    subst hconf
    rw [runRegistration, runRegistrationGo, hok]
    rfl

/-- C9 witness: one configured group whose client creation succeeds; the
registration ends in the nil-map fault. -/
theorem c9_nil_map_registration_faults_witness :
    (∀ m, runRegistration (fun _ => Except.ok 0) [{ groupID := "g1", topicRegexes := ".*" }] ≠
      Except.ok m) ∧
    (∀ (cfg : GroupConfig) (rest : List GroupConfig),
      ([{ groupID := "g1", topicRegexes := ".*" }] : List GroupConfig) = cfg :: rest →
      ∀ a : Nat, (Except.ok 0 : Except String Nat) = Except.ok a →
      runRegistration (fun _ => Except.ok 0) [{ groupID := "g1", topicRegexes := ".*" }] =
        Except.error RunFault.nilMapAssignment) :=
  c9_nil_map_registration_faults (fun _ => Except.ok 0)
    [{ groupID := "g1", topicRegexes := ".*" }] (by decide)
